import Mathlib

/-!
# node-sodium `KeyRing` (src/keyring.cc)

A shallow embedding of the key ring of `src/keyring.cc` and theorems about it.

Conventions of the embedding (platform: x86-64 POSIX, the target of the node addon):

* a `std::string`, a C buffer or a node `Buffer` is the list of its bytes, each byte a
  natural number `0..255` (the object representation of a `char`);
* `char` is signed: comparing two chars compares their signed values (`charValue`);
* `unsigned int` is 32 bits wide; its arithmetic is written with an explicit `% 2 ^ 32`;
* files are opened in text mode, which on POSIX transfers bytes unchanged;
* the libsodium primitives are parameters (`Sodium`); every call made to one of them is
  recorded in a trace (`PrimCall`).
-/

namespace NodeSodium

/-- Bytes of a `std::string`, of a C array or of a node `Buffer`. -/
abbrev Bytes := List Nat

deriving instance DecidableEq for Except

/-! ## Integer conversions -/

/-- The `EOF` value `std::stringbuf::sbumpc` returns at the end of the sequence
(`traits_type::eof()`). -/
def EOF : Int := -1

/-- Conversion `(char) x` of an `int`, given as the byte stored. -/
def toChar (x : Int) : Nat := (x % 256).toNat

/-- Conversion `(unsigned int) x` of an `int`. -/
def toUnsigned (x : Int) : Nat := (x % 2 ^ 32).toNat

/-- Value of a (signed) `char` holding byte `c`, as used by comparisons and by `(int) c`. -/
def charValue (c : Nat) : Int := if c % 256 < 128 then (c % 256 : Nat) else (c % 256 : Nat) - 256

/-! ## Exceptions -/

/-- C++ exceptions thrown inside `keyring.cc`. The ones built with `new runtime_error(..)` are
thrown as pointers; `invalid_argument` (from `hexToStr`), `out_of_range` (from `map::at`) and
`bad_alloc` (from `new[]`) are thrown by value. Numbers streamed into a message are kept as arguments. -/
inductive Exn where
  /-- `invalid_argument("Odd length")` -/
  | oddLength
  /-- `invalid_argument("Invalid hex char")` -/
  | invalidHexChar
  /-- `std::out_of_range` of `map::at` on an absent key -/
  | outOfRange (key : String)
  /-- `new runtime_error("Missing parameter when saving file : " + name)` -/
  | missingParameter (name : String)
  /-- `new runtime_error("Unknown key type: " + keyType)` -/
  | unknownKeyType (keyType : String)
  /-- `new runtime_error("Invalid key type: " << (int) keyType)` -/
  | invalidKeyType (code : Int)
  /-- `new runtime_error("Invalid public key length : " << publicKeyLength)` -/
  | invalidPublicKeyLength (publicKeyLength : Nat)
  /-- `new runtime_error("Invalid private key length : " << privateKeyLength)` -/
  | invalidPrivateKeyLength (privateKeyLength : Nat)
  /-- `new runtime_error("No loaded key pair")` -/
  | noLoadedKeyPair
  /-- `std::bad_alloc` thrown by `new unsigned char[n]` for a size `n` that wrapped around -/
  | badAlloc
  deriving DecidableEq

/-- Whether the exception is a `runtime_error*`, the type the `catch (runtime_error* e)`
clauses of `Load` and `Save` handle. -/
def Exn.isRuntimeErrorPtr : Exn → Bool
  | .oddLength => false
  | .invalidHexChar => false
  | .outOfRange _ => false
  | .badAlloc => false
  | _ => true

/-! ## sodium.h -/

/-- Modelled from the spec: `sodium.h` is not among the sources; section 6 gives the box public
key size as 32 bytes. -/
def crypto_box_PUBLICKEYBYTES : Nat := 32

/-- Modelled from the spec: `sodium.h` is not among the sources; section 6 gives the box private
key size as 32 bytes. -/
def crypto_box_SECRETKEYBYTES : Nat := 32

/-- Modelled from the spec: `sodium.h` is not among the sources; section 6 gives the box nonce
size as 24 bytes. -/
def crypto_box_NONCEBYTES : Nat := 24

/-- The zero padding `crypto_box` wants before the plaintext. `sodium.h` is not among the
sources; the value is the one NaCl and libsodium give the macro, 32
(`crypto_box_curve25519xsalsa20poly1305_ZEROBYTES`). The 16 bytes the spec speaks of are
`crypto_box_BOXZEROBYTES`, the leading zero region of a sealed buffer, for which the source uses
that other macro. -/
def crypto_box_ZEROBYTES : Nat := 32

/-- Modelled from the spec: `sodium.h` is not among the sources; section 4.4 gives the leading
zero region of a sealed buffer as 16 bytes. -/
def crypto_box_BOXZEROBYTES : Nat := 16

/-- Modelled from the spec: `sodium.h` is not among the sources; section 6 gives the signing
public key size as 32 bytes. -/
def crypto_sign_PUBLICKEYBYTES : Nat := 32

/-- Modelled from the spec: `sodium.h` is not among the sources; section 6 gives the signing
private key size as 64 bytes. -/
def crypto_sign_SECRETKEYBYTES : Nat := 64

/-- Modelled from the spec: `sodium.h` is not among the sources; section 6 gives the signature
size as 64 bytes. -/
def crypto_sign_BYTES : Nat := 64

/-- Modelled from the spec: `sodium.h` is not among the sources; section 4.4 gives the shared
secret as 32 bytes. -/
def crypto_scalarmult_BYTES : Nat := 32

/-- The libsodium functions `keyring.cc` calls. Pointer arguments are given as the bytes they
point to, output buffers as the bytes the function stores in them, next to the `int` status
returned. The key pair generators are given by the pair they produce at the call. -/
structure Sodium where
  /-- `crypto_box(c, m, mlen, n, pk, sk)`: status and the `mlen` bytes stored at `c` -/
  crypto_box : (m n pk sk : Bytes) → Int × Bytes
  /-- `crypto_box_open(m, c, clen, n, pk, sk)`: status and the `clen` bytes stored at `m` -/
  crypto_box_open : (c n pk sk : Bytes) → Int × Bytes
  /-- `crypto_sign(sm, &smlen, m, mlen, sk)`: status and the bytes stored at `sm` -/
  crypto_sign : (m sk : Bytes) → Int × Bytes
  /-- `crypto_scalarmult(q, n, p)`: the bytes stored at `q` -/
  crypto_scalarmult : (n p : Bytes) → Bytes
  /-- `crypto_box_keypair(pk, sk)`: the bytes stored at `pk` and at `sk` -/
  crypto_box_keypair : Bytes × Bytes
  /-- `crypto_sign_keypair(pk, sk)`: the bytes stored at `pk` and at `sk` -/
  crypto_sign_keypair : Bytes × Bytes

/-- One call of a libsodium primitive, with the arguments passed. -/
inductive PrimCall where
  | crypto_box (m n pk sk : Bytes)
  | crypto_box_open (c n pk sk : Bytes)
  | crypto_sign (m sk : Bytes)
  | crypto_scalarmult (n p : Bytes)
  | crypto_box_keypair
  | crypto_sign_keypair
  deriving DecidableEq

/-! ## The key pair map and the file system -/

/-- The `map<string, string>` a key ring points to, restricted to the three keys the program
ever inserts or looks up. A key that is absent from the map is `none`. The key type is kept as
text, the two keys as the bytes of their hexadecimal strings. -/
structure KeyPairMap where
  keyType : Option String
  publicKey : Option Bytes
  privateKey : Option Bytes
  deriving DecidableEq

/-- `keyPair->at(key)` for the key type: throws `out_of_range` when the key is absent. -/
def KeyPairMap.atKeyType (keyPair : KeyPairMap) : Except Exn String :=
  match keyPair.keyType with
  | some v => .ok v
  | none => .error (.outOfRange "keyType")

/-- `keyPair->at("publicKey")`. -/
def KeyPairMap.atPublicKey (keyPair : KeyPairMap) : Except Exn Bytes :=
  match keyPair.publicKey with
  | some v => .ok v
  | none => .error (.outOfRange "publicKey")

/-- `keyPair->at("privateKey")`. -/
def KeyPairMap.atPrivateKey (keyPair : KeyPairMap) : Except Exn Bytes :=
  match keyPair.privateKey with
  | some v => .ok v
  | none => .error (.outOfRange "privateKey")

/-- The files seen by the `fstream`s of `keyring.cc`. -/
structure FileSystem where
  /-- bytes of the file at a path; `none` when it cannot be opened with `ios::in` -/
  content : String → Option Bytes
  /-- whether the path can be opened with `ios::out | ios::trunc` -/
  writable : String → Bool

/-- Result of writing `data` through `fstream(filename, ios::out | ios::trunc)`: the file holds
exactly `data`; when the stream could not be opened every write is a no-op. -/
def FileSystem.write (fs : FileSystem) (filename : String) (data : Bytes) : FileSystem :=
  if fs.writable filename then
    { content := fun path => if path = filename then some data else fs.content path,
      writable := fs.writable }
  else fs

/-- `std::getline(fileReader, keyStr)`: the bytes before the first line feed; empty when the
stream could not be opened. -/
def getline (file : Option Bytes) : Bytes :=
  match file with
  | none => []
  | some content => content.takeWhile (fun c => c ≠ 0x0A)

/-! ## The binding layer -/

/-- A JavaScript argument, given by what the accessors the binding applies to it yield. -/
structure Value where
  /-- `v->IsUndefined()` -/
  isUndefined : Bool
  /-- `*String::Utf8Value(v->ToString())` -/
  utf8 : String
  /-- `Buffer::Data(v->ToObject())`, of length `Buffer::Length(v->ToObject())` -/
  data : Bytes
  deriving DecidableEq

/-- The value `Undefined()`. -/
def Value.undefined : Value := { isUndefined := true, utf8 := "undefined", data := [] }

/-- A string argument. -/
def Value.string (s : String) : Value := { isUndefined := false, utf8 := s, data := [] }

/-- A `Buffer` argument. Its `toString()` is not modelled. -/
def Value.buffer (data : Bytes) : Value := { isUndefined := false, utf8 := "", data := data }

/-- `args[i]`: the argument at index `i`, `Undefined()` past the last one. -/
def arg (args : List Value) (i : Nat) : Value := args.getD i Value.undefined

/-- A value handed back to JavaScript. -/
inductive Result where
  | undefined
  /-- a `Buffer` with these bytes -/
  | buffer (data : Bytes)
  /-- the object of `PPublicKeyInfo`, with properties `keyType` and `publicKey` -/
  | publicKeyInfo (keyType : String) (publicKey : Bytes)
  deriving DecidableEq

/-- The `TypeError`s raised with `ThrowException`, one constructor per message. -/
inductive JsError where
  /-- the message of `MANDATORY_ARGS` -/
  | mandatoryArgs
  /-- "No key pair has been loaded into the key ring" (`CHECK_KEYPAIR`) -/
  | noKeyPair
  /-- "Invalid key type" (`CHECK_KEYPAIR`, `CreateKeyPair`) -/
  | invalidKeyType
  /-- "Public key must be 32 bytes long" -/
  | publicKeyLength
  /-- "The nonce must be 24 bytes long" -/
  | nonceLength
  /-- "The first 16 bytes of the cipher argument must be zeros" -/
  | cipherZeros
  /-- "Error while encrypting message. Error code : " and the status -/
  | encrypting (boxResult : Int)
  /-- "Error while decrypting message. Error code : " and the status -/
  | decrypting (boxResult : Int)
  /-- "Error while signing the message. Code : " and the status -/
  | signing (signResult : Int)
  /-- "No key has been loaded into memory" (`PublicKeyInfo`) -/
  | noKeyInMemory
  /-- "No key has been loaded into the keyring" (`Save`) -/
  | noKeyInKeyring
  /-- the message `e->what()` of a caught `runtime_error*` -/
  | what (e : Exn)
  deriving DecidableEq

/-- How a call of a binding function ends. -/
inductive Outcome where
  /-- `return scope.Close(v)` -/
  | returned (v : Result)
  /-- `callback->Call(globalObj, argc, argv)` then `return scope.Close(Undefined())` -/
  | calledBack (argv : List Result)
  /-- `ThrowException(Exception::TypeError(..))` then `return scope.Close(Undefined())` -/
  | threw (e : JsError)
  /-- a C++ exception leaves the function -/
  | uncaught (e : Exn)
  /-- the function reads past the end of an argument buffer -/
  | undefinedBehaviour
  deriving DecidableEq

/-- `Buffer::New(length)`: a buffer of `length` bytes. The source does not set its content; it
is modelled as zero bytes. -/
def freshBuffer (length : Nat) : Bytes := List.replicate length 0

/-- Content of the output buffer `buffer` after a primitive stored the bytes `out` from its
start on: the buffer keeps its length, `out` replaces its first bytes. -/
def storeInto (buffer out : Bytes) : Bytes := out.take buffer.length ++ buffer.drop out.length

/-- The C string at `data`: the bytes before the first NUL (what `strlen` measures). -/
def cString (data : Bytes) : Bytes := data.takeWhile (fun c => c ≠ 0)

/-- `BUILD_BUFFER(data)`: a `Buffer` of `strlen(data)` bytes copied from `data`. -/
def BUILD_BUFFER (data : Bytes) : Bytes := cString data

/-- `MANDATORY_ARGS(n, message)`: the early exit taken when fewer than `n` arguments are
given. -/
def MANDATORY_ARGS (n : Nat) (args : List Value) : Option Outcome :=
  if args.length < n then some (.threw .mandatoryArgs) else none

/-- The fields of the C++ class `KeyRing`; a null `keyPair` is `none`. -/
structure KeyRing where
  keyPair : Option KeyPairMap
  filename_ : String
  deriving DecidableEq

/-- `CHECK_KEYPAIR(type)`: the early exit taken (`error`), or the map `instance->keyPair`
points to when the check passes. -/
def CHECK_KEYPAIR (inst : KeyRing) (type : String) : Except Outcome KeyPairMap :=
  match inst.keyPair with
  | none => .error (.threw .noKeyPair)
  | some keyPair =>
    match keyPair.atKeyType with
    | .error e => .error (.uncaught e)
    | .ok keyType => if keyType ≠ type then .error (.threw .invalidKeyType) else .ok keyPair

namespace KeyRing

/-! ## HexCodec: `strToHex`, `hexToStr` -/

/-- The array `charset` of `strToHex` and `hexToStr`: the literal `"0123456789abcdef"`, with the
terminating NUL of the literal at index 16. -/
def charset : Bytes :=
  [0x30, 0x31, 0x32, 0x33, 0x34, 0x35, 0x36, 0x37, 0x38, 0x39,
   0x61, 0x62, 0x63, 0x64, 0x65, 0x66, 0x00]

/-- Read `charset[i]`. -/
def charsetAt (i : Nat) : Nat := charset.getD i 0

/-- `KeyRing::strToHex`: two characters of `charset` per input byte, `charset[c >> 4]` then
`charset[c & 15]` with `c` the byte as `unsigned char`. -/
def strToHex : Bytes → Bytes
  | [] => []
  | c :: s => charsetAt ((c % 256) >>> 4) :: charsetAt ((c % 256) &&& 15) :: strToHex s

/-- `std::lower_bound(charset, charset + 16, a)` as an offset from `charset`: the first position
of the range whose element is not less than `a` (16 when there is none). Chars compare by their
signed value. -/
def lower_bound (a : Nat) : Nat :=
  ((charset.take 16).takeWhile (fun x => decide (charValue x < charValue a))).length

/-- The loop of `hexToStr`, on what is left of an even-length input: two characters per step. -/
def hexToStrLoop : Bytes → Except Exn Bytes
  | a :: b :: rest =>
    let p := lower_bound a
    if charsetAt p ≠ a then .error .invalidHexChar
    else
      let q := lower_bound b
      if charsetAt q ≠ b then .error .invalidHexChar
      else
        match hexToStrLoop rest with
        | .error e => .error e
        | .ok output => .ok (toChar (((p <<< 4) ||| q : Nat) : Int) :: output)
  | _ => .ok []

/-- `KeyRing::hexToStr`: throws on an odd length (`length & 1`), then decodes pair by pair. -/
def hexToStr (s : Bytes) : Except Exn Bytes :=
  if s.length &&& 1 ≠ 0 then .error .oddLength else hexToStrLoop s

/-! ## KeyFileCodec: `saveKeyPair`, `loadKeyPair` -/

/-- The body of `saveKeyPair` after the stream is opened: the bytes put into `fileWriter` and
the exception thrown, if any. Bytes written before a throw stay written. -/
def saveKeyPairStream (keyPair : KeyPairMap) : Bytes × Option Exn :=
  match keyPair.keyType, keyPair.privateKey, keyPair.publicKey with
  | none, _, _ => ([], some (.missingParameter "keyType"))
  | some _, none, _ => ([], some (.missingParameter "privateKey"))
  | some _, some _, none => ([], some (.missingParameter "publicKey"))
  | some keyType, some privateKey, some publicKey =>
    if keyType = "curve25519" then
      let w := [toChar 0x05, toChar (crypto_box_PUBLICKEYBYTES >>> 8 : Nat),
        toChar crypto_box_PUBLICKEYBYTES]
      match hexToStr publicKey with
      | .error e => (w, some e)
      | .ok pk =>
        let w := w ++ pk ++ [toChar (crypto_box_SECRETKEYBYTES >>> 8 : Nat),
          toChar crypto_box_SECRETKEYBYTES]
        match hexToStr privateKey with
        | .error e => (w, some e)
        | .ok sk => (w ++ sk, none)
    else if keyType = "ed25519" then
      let w := [toChar 0x06, toChar (crypto_sign_PUBLICKEYBYTES >>> 8 : Nat),
        toChar crypto_sign_PUBLICKEYBYTES]
      match hexToStr publicKey with
      | .error e => (w, some e)
      | .ok pk =>
        let w := w ++ pk ++ [toChar (crypto_sign_SECRETKEYBYTES >>> 8 : Nat),
          toChar crypto_sign_SECRETKEYBYTES]
        match hexToStr privateKey with
        | .error e => (w, some e)
        | .ok sk => (w ++ sk, none)
    else ([], some (.unknownKeyType keyType))

/-- `KeyRing::saveKeyPair`: the file system afterwards and the exception thrown, if any. -/
def saveKeyPair (fs : FileSystem) (filename : String) (keyPair : KeyPairMap) :
    FileSystem × Option Exn :=
  let r := saveKeyPairStream keyPair
  (fs.write filename r.1, r.2)

/-- `buffer->sbumpc()`: the next byte as an `int` and the rest of the sequence, `EOF` at the
end. -/
def sbumpc (buffer : Bytes) : Int × Bytes :=
  match buffer with
  | [] => (EOF, [])
  | c :: rest => ((c : Int), rest)

/-- The two statements reading a key length in `loadKeyPair`:
`len = ((unsigned int) buffer->sbumpc()) << 8; len += (unsigned int) buffer->sbumpc();`. -/
def readLength (buffer : Bytes) : Nat × Bytes :=
  let r1 := sbumpc buffer
  let len := (toUnsigned r1.1 <<< 8) % 2 ^ 32
  let r2 := sbumpc r1.2
  ((len + toUnsigned r2.1) % 2 ^ 32, r2.2)

/-- The loop `for (i = 0; i < n; i++) key += (char) buffer->sbumpc();` of `loadKeyPair`. -/
def readChars : Nat → Bytes → Bytes × Bytes
  | 0, buffer => ([], buffer)
  | n + 1, buffer =>
    let r := sbumpc buffer
    let k := readChars n r.2
    (toChar r.1 :: k.1, k.2)

/-- The body of `loadKeyPair` on the line `keyStr` read from the file. The map is returned as
it stands after the two branches on the tag; the last `else` is the empty map of a tag that is
neither, which the first check excludes. -/
def loadKeyPairFrom (keyStr : Bytes) : Except Exn KeyPairMap :=
  let r0 := sbumpc keyStr
  let keyType := toChar r0.1
  if ¬ (charValue keyType = 0x05 ∨ charValue keyType = 0x06) then
    .error (.invalidKeyType (charValue keyType))
  else if charValue keyType = 0x05 then
    let l1 := readLength r0.2
    if l1.1 ≠ crypto_box_PUBLICKEYBYTES then .error (.invalidPublicKeyLength l1.1)
    else
      let k1 := readChars l1.1 l1.2
      let publicKey := strToHex k1.1
      let l2 := readLength k1.2
      if l2.1 ≠ crypto_box_SECRETKEYBYTES then .error (.invalidPrivateKeyLength l2.1)
      else
        let k2 := readChars l2.1 l2.2
        let privateKey := strToHex k2.1
        .ok { keyType := some "curve25519", publicKey := some publicKey,
              privateKey := some privateKey }
  else if charValue keyType = 0x06 then
    let l1 := readLength r0.2
    if l1.1 ≠ crypto_sign_PUBLICKEYBYTES then .error (.invalidPublicKeyLength l1.1)
    else
      let k1 := readChars l1.1 l1.2
      let publicKey := strToHex k1.1
      let l2 := readLength k1.2
      if l2.1 ≠ crypto_sign_SECRETKEYBYTES then .error (.invalidPrivateKeyLength l2.1)
      else
        let k2 := readChars l2.1 l2.2
        let privateKey := strToHex k2.1
        .ok { keyType := some "ed25519", publicKey := some publicKey,
              privateKey := some privateKey }
  else .ok { keyType := none, publicKey := none, privateKey := none }

/-- `KeyRing::loadKeyPair`: one `getline` from the file, then the record is read from that
line. -/
def loadKeyPair (fs : FileSystem) (filename : String) : Except Exn KeyPairMap :=
  loadKeyPairFrom (getline (fs.content filename))

/-- `KeyRing::doesFileExist`: whether an input stream on the file is good. -/
def doesFileExist (fs : FileSystem) (filename : String) : Bool :=
  (fs.content filename).isSome

/-- The constructor `KeyRing::KeyRing(string filename)`; an exception of `loadKeyPair` leaves
the constructor. -/
def construct (fs : FileSystem) (filename : String) : Except Exn KeyRing :=
  if filename ≠ "" then
    if ¬ doesFileExist fs filename then .ok { keyPair := none, filename_ := filename }
    else
      match loadKeyPair fs filename with
      | .error e => .error e
      | .ok keyPair => .ok { keyPair := some keyPair, filename_ := filename }
  else .ok { keyPair := none, filename_ := filename }

/-- `KeyRing::Encrypt`: the primitive calls made and the outcome. The sealed bytes are stored
in `cipherBuf`, a `Buffer::New(messageLength + crypto_box_ZEROBYTES)`; the 3-argument call
returns that buffer, the callback gets a `BUILD_BUFFER` copy of its bytes. -/
def Encrypt (S : Sodium) (inst : KeyRing) (args : List Value) : List PrimCall × Outcome :=
  match MANDATORY_ARGS 3 args with
  | some exit => ([], exit)
  | none =>
    match CHECK_KEYPAIR inst "curve25519" with
    | .error exit => ([], exit)
    | .ok keyPair =>
      let message := (arg args 0).data
      let publicKey := (arg args 1).data
      if publicKey.length ≠ crypto_box_PUBLICKEYBYTES then ([], .threw .publicKeyLength)
      else
        let nonce := (arg args 2).data
        if nonce.length ≠ crypto_box_NONCEBYTES then ([], .threw .nonceLength)
        else
          let paddedMessage := List.replicate crypto_box_ZEROBYTES 0 ++ message
          match keyPair.atPrivateKey with
          | .error e => ([], .uncaught e)
          | .ok privateKeyHex =>
            match hexToStr privateKeyHex with
            | .error e => ([], .uncaught e)
            | .ok privateKey =>
              let calls := [PrimCall.crypto_box paddedMessage nonce publicKey privateKey]
              let r := S.crypto_box paddedMessage nonce publicKey privateKey
              let cipher :=
                storeInto (freshBuffer (message.length + crypto_box_ZEROBYTES)) r.2
              if r.1 ≠ 0 then (calls, .threw (.encrypting r.1))
              else if args.length = 3 then (calls, .returned (.buffer cipher))
              else
                let resultBuffer :=
                  BUILD_BUFFER (cipher.take (message.length + crypto_box_ZEROBYTES))
                (calls, .calledBack [.buffer resultBuffer])

/-- The loop of `Decrypt` over the first `crypto_box_BOXZEROBYTES` bytes of the cipher, with
`n` steps left: the value of `i` when the loop ends, or `none` when `cipher[i]` lies past the
end of the buffer. -/
def scanZeros : Nat → Bytes → Nat → Option Nat
  | 0, _, i => some i
  | _ + 1, [], _ => none
  | n + 1, c :: cipher, i => if c ≠ 0 then some i else scanZeros n cipher (i + 1)

/-- `KeyRing::Decrypt`: the primitive calls made and the outcome. The zero check covers
`crypto_box_BOXZEROBYTES` bytes only; for a cipher shorter than `crypto_box_ZEROBYTES` that the
primitive opens with status 0, the size `cipherLength - crypto_box_ZEROBYTES` of the plaintext
array wraps around and `new[]` throws. -/
def Decrypt (S : Sodium) (inst : KeyRing) (args : List Value) : List PrimCall × Outcome :=
  match MANDATORY_ARGS 3 args with
  | some exit => ([], exit)
  | none =>
    match CHECK_KEYPAIR inst "curve25519" with
    | .error exit => ([], exit)
    | .ok keyPair =>
      let cipher := (arg args 0).data
      match scanZeros crypto_box_BOXZEROBYTES cipher 0 with
      | none => ([], .undefinedBehaviour)
      | some i =>
        if i < crypto_box_BOXZEROBYTES then ([], .threw .cipherZeros)
        else
          let publicKey := (arg args 1).data
          let nonce := (arg args 2).data
          match keyPair.atPrivateKey with
          | .error e => ([], .uncaught e)
          | .ok privateKeyHex =>
            match hexToStr privateKeyHex with
            | .error e => ([], .uncaught e)
            | .ok privateKey =>
              let calls := [PrimCall.crypto_box_open cipher nonce publicKey privateKey]
              let r := S.crypto_box_open cipher nonce publicKey privateKey
              if r.1 ≠ 0 then (calls, .threw (.decrypting r.1))
              else if cipher.length < crypto_box_ZEROBYTES then (calls, .uncaught .badAlloc)
              else
                let plaintext :=
                  (r.2.drop crypto_box_ZEROBYTES).take (cipher.length - crypto_box_ZEROBYTES)
                let resultBuffer := BUILD_BUFFER plaintext
                if args.length = 3 then (calls, .returned (.buffer resultBuffer))
                else (calls, .calledBack [.buffer resultBuffer])

/-- `KeyRing::Sign`: the primitive calls made and the outcome. -/
def Sign (S : Sodium) (inst : KeyRing) (args : List Value) : List PrimCall × Outcome :=
  match MANDATORY_ARGS 1 args with
  | some exit => ([], exit)
  | none =>
    match CHECK_KEYPAIR inst "ed25519" with
    | .error exit => ([], exit)
    | .ok keyPair =>
      let message := (arg args 0).data
      match keyPair.atPrivateKey with
      | .error e => ([], .uncaught e)
      | .ok privateKeyHex =>
        match hexToStr privateKeyHex with
        | .error e => ([], .uncaught e)
        | .ok privateKey =>
          let calls := [PrimCall.crypto_sign message privateKey]
          let r := S.crypto_sign message privateKey
          if r.1 ≠ 0 then (calls, .threw (.signing r.1))
          else if args.length = 1 then (calls, .returned (.buffer r.2))
          else
            let resultBuffer := BUILD_BUFFER (r.2.take (message.length + crypto_sign_BYTES))
            (calls, .calledBack [.buffer resultBuffer])

/-- `KeyRing::Agree`: the primitive calls made and the outcome. -/
def Agree (S : Sodium) (inst : KeyRing) (args : List Value) : List PrimCall × Outcome :=
  match MANDATORY_ARGS 1 args with
  | some exit => ([], exit)
  | none =>
    match CHECK_KEYPAIR inst "curve25519" with
    | .error exit => ([], exit)
    | .ok keyPair =>
      let counterpartPubKey := (arg args 0).data
      match keyPair.atPrivateKey with
      | .error e => ([], .uncaught e)
      | .ok privateKeyHex =>
        match hexToStr privateKeyHex with
        | .error e => ([], .uncaught e)
        | .ok privateKey =>
          let calls := [PrimCall.crypto_scalarmult privateKey counterpartPubKey]
          let sharedSecret := S.crypto_scalarmult privateKey counterpartPubKey
          if args.length = 1 then (calls, .returned (.buffer sharedSecret))
          else
            let resultBuffer := BUILD_BUFFER (sharedSecret.take crypto_scalarmult_BYTES)
            (calls, .calledBack [.buffer resultBuffer])

/-- `KeyRing::PPublicKeyInfo`: the object with the key type and the public key, both passed to
`String::New` as C strings. -/
def PPublicKeyInfo (inst : KeyRing) : Except Exn Result :=
  match inst.keyPair with
  | none => .error .noLoadedKeyPair
  | some keyPair =>
    match keyPair.atKeyType with
    | .error e => .error e
    | .ok keyType =>
      match keyPair.atPublicKey with
      | .error e => .error e
      | .ok publicKey => .ok (.publicKeyInfo keyType (cString publicKey))

/-- The sync/async fork that ends `PublicKeyInfo`, `CreateKeyPair` and `Load`: the key
information is handed to the callback when `callback` holds, returned otherwise. -/
def replyPublicKeyInfo (inst : KeyRing) (callback : Bool) : Outcome :=
  match PPublicKeyInfo inst with
  | .error e => .uncaught e
  | .ok info => if callback then .calledBack [info] else .returned info

/-- `KeyRing::PublicKeyInfo`. -/
def PublicKeyInfo (inst : KeyRing) (args : List Value) : Outcome :=
  match inst.keyPair with
  | none => .threw .noKeyInMemory
  | some _ => replyPublicKeyInfo inst (decide (args.length ≠ 0))

/-- `KeyRing::CreateKeyPair`: the ring and the file system afterwards, the primitive calls made
and the outcome. -/
def CreateKeyPair (S : Sodium) (fs : FileSystem) (inst : KeyRing) (args : List Value) :
    KeyRing × FileSystem × List PrimCall × Outcome :=
  match MANDATORY_ARGS 1 args with
  | some exit => (inst, fs, [], exit)
  | none =>
    let keyType := (arg args 0).utf8
    if ¬ (keyType = "ed25519" ∨ keyType = "curve25519") then
      (inst, fs, [], .threw .invalidKeyType)
    else
      let generated : KeyPairMap × List PrimCall :=
        if keyType = "ed25519" then
          let k := S.crypto_sign_keypair
          ({ keyType := some "ed25519",
             privateKey := some (strToHex (k.2.take crypto_sign_SECRETKEYBYTES)),
             publicKey := some (strToHex (k.1.take crypto_sign_PUBLICKEYBYTES)) },
           [PrimCall.crypto_sign_keypair])
        else
          let k := S.crypto_box_keypair
          ({ keyType := some "curve25519",
             privateKey := some (strToHex (k.2.take crypto_box_SECRETKEYBYTES)),
             publicKey := some (strToHex (k.1.take crypto_box_PUBLICKEYBYTES)) },
           [PrimCall.crypto_box_keypair])
      let inst1 : KeyRing := { keyPair := some generated.1, filename_ := inst.filename_ }
      if 2 ≤ args.length ∧ ¬ (arg args 1).isUndefined then
        let filename := (arg args 1).utf8
        let saved := saveKeyPair fs filename generated.1
        match saved.2 with
        | some e => (inst1, saved.1, generated.2, .uncaught e)
        | none =>
          let inst2 : KeyRing := { keyPair := some generated.1, filename_ := filename }
          (inst2, saved.1, generated.2, replyPublicKeyInfo inst2 (decide (args.length = 3)))
      else (inst1, fs, generated.2, replyPublicKeyInfo inst1 (decide (args.length = 3)))

/-- `KeyRing::Load`: the ring afterwards and the outcome. An exception that is not a pointer is
handled by neither `catch` clause. -/
def Load (fs : FileSystem) (inst : KeyRing) (args : List Value) : KeyRing × Outcome :=
  match MANDATORY_ARGS 1 args with
  | some exit => (inst, exit)
  | none =>
    let filename := (arg args 0).utf8
    match loadKeyPair fs filename with
    | .error e =>
      if e.isRuntimeErrorPtr then (inst, .threw (.what e)) else (inst, .uncaught e)
    | .ok newKeyPair =>
      let inst1 : KeyRing := { keyPair := some newKeyPair, filename_ := filename }
      (inst1, replyPublicKeyInfo inst1 (decide (args.length ≠ 1)))

/-- `KeyRing::Save`: the file system afterwards and the outcome. -/
def Save (fs : FileSystem) (inst : KeyRing) (args : List Value) : FileSystem × Outcome :=
  match MANDATORY_ARGS 1 args with
  | some exit => (fs, exit)
  | none =>
    match inst.keyPair with
    | none => (fs, .threw .noKeyInKeyring)
    | some keyPair =>
      let filename := (arg args 0).utf8
      let saved := saveKeyPair fs filename keyPair
      match saved.2 with
      | some e =>
        if e.isRuntimeErrorPtr then (saved.1, .threw (.what e)) else (saved.1, .uncaught e)
      | none =>
        if args.length = 1 then (saved.1, .returned .undefined) else (saved.1, .calledBack [])

/-- `KeyRing::Clear`: the ring afterwards; the call returns `Undefined()`. -/
def Clear (inst : KeyRing) : KeyRing × Outcome :=
  ({ keyPair := none, filename_ := inst.filename_ }, .returned .undefined)

/-- The map `CreateKeyPair` and `loadKeyPair` build from a key type and the raw bytes of the two
keys: the keys are stored as `strToHex` of their bytes. -/
def keyPairOf (keyType : String) (publicKey privateKey : Bytes) : KeyPairMap :=
  { keyType := some keyType, publicKey := some (strToHex publicKey),
    privateKey := some (strToHex privateKey) }

/-- The characters `0-9` and `a-f`. -/
def isLowerHexDigit (c : Nat) : Prop := (0x30 ≤ c ∧ c ≤ 0x39) ∨ (0x61 ≤ c ∧ c ≤ 0x66)

instance (c : Nat) : Decidable (isLowerHexDigit c) := by
  unfold isLowerHexDigit; infer_instance

/-- Private key length the record format fixes for a tag: 32 for `0x05`, 64 for `0x06`. -/
def privateKeyLengthOf (tag : Nat) : Nat := if tag = 0x05 then 32 else 64

/-- Key type the record format names by a tag: `0x05` Curve25519, `0x06` Ed25519. -/
def keyTypeOf (tag : Nat) : String := if tag = 0x05 then "curve25519" else "ed25519"

/-- A file system without any file, where every path can be written. -/
def emptyFileSystem : FileSystem := { content := fun _ => none, writable := fun _ => true }

/-- A file system holding one file. -/
def singleFile (filename : String) (content : Bytes) : FileSystem :=
  emptyFileSystem.write filename content

/-- Stand-ins for the libsodium functions, used to evaluate the binding on concrete input: the
box functions copy their input (so each opens what the other seals, and a padded message keeps
its leading zeros), signing puts 64 zero bytes before the message, scalar multiplication gives
32 zero bytes, and the key pair generators give `publicKey` and `privateKey`. -/
def exampleSodium (publicKey privateKey : Bytes) : Sodium where
  crypto_box := fun m _ _ _ => (0, m)
  crypto_box_open := fun c _ _ _ => (0, c)
  crypto_sign := fun m _ => (0, List.replicate 64 0 ++ m)
  crypto_scalarmult := fun _ _ => List.replicate 32 0
  crypto_box_keypair := (publicKey, privateKey)
  crypto_sign_keypair := (publicKey, privateKey)

/-- A ring holding the key pair built from a key type and raw key bytes. -/
def ringOf (keyType : String) (publicKey privateKey : Bytes) : KeyRing :=
  { keyPair := some (keyPairOf keyType publicKey privateKey), filename_ := "" }

/-- How a call of `KeyRing::New` ends. -/
inductive Constructed where
  /-- the new instance is wrapped and `args.This()` returned -/
  | wrapped (newInstance : KeyRing)
  /-- `TypeError` "Invalid number of arguments on KeyRing constructor call" -/
  | threwInvalidNumberOfArguments
  /-- a C++ exception leaves the constructor and `New` -/
  | uncaught (e : Exn)
  deriving DecidableEq

/-- The construct-call branch of `KeyRing::New`: the file name is empty when `args[0]` is
undefined, then `new KeyRing(filename)`, without any `try`. -/
def NewConstructCall (fs : FileSystem) (args : List Value) : Constructed :=
  let filename := if (arg args 0).isUndefined then "" else (arg args 0).utf8
  match construct fs filename with
  | .error e => .uncaught e
  | .ok newInstance => .wrapped newInstance

/-- `KeyRing::New`. Called as a plain function it is turned into a construct call with the same
arguments (`constructor->NewInstance`), unless more than one argument is given. -/
def New (fs : FileSystem) (isConstructCall : Bool) (args : List Value) : Constructed :=
  if isConstructCall then NewConstructCall fs args
  else if args.length > 1 then .threwInvalidNumberOfArguments
  else NewConstructCall fs args

/-- A function argument (a callback). The binding only casts and calls it; the arguments it is
called with are recorded in the outcome. -/
def Value.callback : Value := { isUndefined := false, utf8 := "", data := [] }

/-! ## Theorems: HexCodec -/

set_option maxRecDepth 100000

theorem hex_pair_of_byte : ∀ c < 256,
    charsetAt (lower_bound (charsetAt (c >>> 4))) = charsetAt (c >>> 4) ∧
    charsetAt (lower_bound (charsetAt (c &&& 15))) = charsetAt (c &&& 15) ∧
    toChar (((lower_bound (charsetAt (c >>> 4)) <<< 4) |||
      lower_bound (charsetAt (c &&& 15)) : Nat) : Int) = c := by
  decide

theorem lower_bound_hit_byte : ∀ a < 256,
    (charsetAt (lower_bound a) = a ↔ isLowerHexDigit a) := by
  decide


theorem lower_bound_le (a : Nat) : lower_bound a ≤ 16 := by
  unfold lower_bound
  exact le_trans (List.takeWhile_sublist _).length_le (by decide)

theorem charsetAt_le : ∀ p ≤ 16, charsetAt p ≤ 102 := by decide

theorem lower_bound_hit (a : Nat) : charsetAt (lower_bound a) = a ↔ isLowerHexDigit a := by
  by_cases h : a < 256
  · exact lower_bound_hit_byte a h
  · have h1 := charsetAt_le (lower_bound a) (lower_bound_le a)
    constructor
    · intro h2; omega
    · intro h2; unfold isLowerHexDigit at h2; omega

theorem strToHex_length (b : Bytes) : (strToHex b).length = 2 * b.length := by
  induction b with
  | nil => rfl
  | cons c s ih => simp only [strToHex, List.length_cons, ih]; omega

theorem hexToStrLoop_strToHex (b : Bytes) (hb : ∀ c ∈ b, c < 256) :
    hexToStrLoop (strToHex b) = .ok b := by
  induction b with
  | nil => rfl
  | cons c s ih =>
    have hc : c < 256 := hb c (List.mem_cons_self c s)
    have hs : ∀ x ∈ s, x < 256 := fun x hx => hb x (List.mem_cons_of_mem c hx)
    obtain ⟨h1, h2, h3⟩ := hex_pair_of_byte c hc
    simp only [strToHex, Nat.mod_eq_of_lt hc, hexToStrLoop, h1, h2, h3, ih hs, ne_eq,
      not_true_eq_false, if_false]

theorem hexToStr_of_strToHex (b : Bytes) (hb : ∀ c ∈ b, c < 256) :
    hexToStr (strToHex b) = .ok b := by
  unfold hexToStr
  have h : (strToHex b).length &&& 1 = 0 := by
    rw [strToHex_length, Nat.and_one_is_mod]; omega
  simp only [h, ne_eq, not_true_eq_false, if_false]
  exact hexToStrLoop_strToHex b hb

/-- C6. Decoding the hexadecimal encoding of a byte sequence succeeds and gives the sequence
back: `hexToStr (strToHex b) = b` for every `b`, of any length, the bytes `0x00` and those from
`0x80` on included. -/
theorem hexToStr_strToHex (b : Bytes) (hb : ∀ c ∈ b, c < 256) :
    hexToStr (strToHex b) = .ok b :=
  hexToStr_of_strToHex b hb

/-- C6, at the bytes `00 0a 7f 80 ff`. -/
theorem hexToStr_strToHex_witness :
    (∀ c ∈ [0x00, 0x0A, 0x7F, 0x80, 0xFF], c < 256) ∧
      hexToStr (strToHex [0x00, 0x0A, 0x7F, 0x80, 0xFF]) = .ok [0x00, 0x0A, 0x7F, 0x80, 0xFF] :=
  ⟨by decide, hexToStr_strToHex [0x00, 0x0A, 0x7F, 0x80, 0xFF] (by decide)⟩

theorem hexToStrLoop_error (n : Nat) : ∀ s : Bytes, s.length = 2 * n →
    ((hexToStrLoop s = .error .invalidHexChar ↔ ∃ c ∈ s, ¬ isLowerHexDigit c) ∧
     (∀ e, hexToStrLoop s = .error e → e = .invalidHexChar)) := by
  induction n with
  | zero =>
    intro s hs
    have : s = [] := List.length_eq_zero.mp (by omega)
    subst this
    simp [hexToStrLoop]
  | succ n ih =>
    intro s hs
    match s, hs with
    | a :: b :: rest, hs =>
      have hr : rest.length = 2 * n := by simp only [List.length_cons] at hs; omega
      obtain ⟨ih1, ih2⟩ := ih rest hr
      have ha := lower_bound_hit a
      have hb := lower_bound_hit b
      by_cases h1 : charsetAt (lower_bound a) = a
      · by_cases h2 : charsetAt (lower_bound b) = b
        · have ia := ha.mp h1
          have ib := hb.mp h2
          cases hrest : hexToStrLoop rest with
          | error e =>
            have he := ih2 e hrest
            subst he
            have hval : hexToStrLoop (a :: b :: rest) = .error .invalidHexChar := by
              simp only [hexToStrLoop, h1, h2, hrest, ne_eq, not_true_eq_false, if_false]
            rw [hval]
            obtain ⟨c, hc, hc2⟩ := ih1.mp hrest
            exact ⟨⟨fun _ => ⟨c, List.mem_cons_of_mem _ (List.mem_cons_of_mem _ hc), hc2⟩,
              fun _ => rfl⟩, fun e he => by cases he; rfl⟩
          | ok out =>
            have hval : hexToStrLoop (a :: b :: rest) =
                .ok (toChar (((lower_bound a <<< 4) ||| lower_bound b : Nat) : Int) :: out) := by
              simp only [hexToStrLoop, h1, h2, hrest, ne_eq, not_true_eq_false, if_false]
            rw [hval]
            refine ⟨⟨fun h => (by cases h), ?_⟩, fun e he => (by cases he)⟩
            rintro ⟨c, hc, hc2⟩
            simp only [List.mem_cons] at hc
            rcases hc with rfl | rfl | hc
            · exact absurd ia hc2
            · exact absurd ib hc2
            · have := ih1.mpr ⟨c, hc, hc2⟩
              rw [hrest] at this; cases this
        · have hval : hexToStrLoop (a :: b :: rest) = .error .invalidHexChar := by
            simp only [hexToStrLoop, h1, h2, ne_eq, not_true_eq_false, not_false_eq_true,
              if_false, if_true]
          rw [hval]
          exact ⟨⟨fun _ => ⟨b, by simp, fun hh => h2 (hb.mpr hh)⟩, fun _ => rfl⟩,
            fun e he => by cases he; rfl⟩
      · have hval : hexToStrLoop (a :: b :: rest) = .error .invalidHexChar := by
          simp only [hexToStrLoop, h1, ne_eq, not_false_eq_true, if_true]
        rw [hval]
        exact ⟨⟨fun _ => ⟨a, by simp, fun hh => h1 (ha.mpr hh)⟩, fun _ => rfl⟩,
          fun e he => by cases he; rfl⟩
    | [], hs => simp at hs
    | [_], hs => simp only [List.length_cons, List.length_nil] at hs; omega

/-- C7. `hexToStr` throws exactly on the strings of odd length ("Odd length") and on the
strings of even length holding a character outside `0-9`, `a-f` ("Invalid hex char"); so it
fails if and only if the length is odd or some character is outside that set. `"AB"` is
rejected, `"ab"` decodes to the single byte `0xAB`. -/
theorem hexToStr_fails_iff (s : Bytes) :
    ((∃ e, hexToStr s = .error e) ↔ (s.length % 2 = 1 ∨ ∃ c ∈ s, ¬ isLowerHexDigit c)) ∧
    (hexToStr s = .error .oddLength ↔ s.length % 2 = 1) ∧
    (hexToStr s = .error .invalidHexChar ↔
      (s.length % 2 = 0 ∧ ∃ c ∈ s, ¬ isLowerHexDigit c)) ∧
    hexToStr [0x41, 0x42] = .error .invalidHexChar ∧
    hexToStr [0x61, 0x62] = .ok [0xAB] := by
  refine ⟨?_, ?_, ?_, by decide, by decide⟩
  all_goals
    unfold hexToStr
    rw [Nat.and_one_is_mod]
    by_cases hodd : s.length % 2 = 1
    · simp [hodd]
    · have heven : s.length % 2 = 0 := by omega
      obtain ⟨l1, l2⟩ := hexToStrLoop_error (s.length / 2) s (by omega)
      simp only [heven, ne_eq, not_true_eq_false, if_false]
      first
        | (constructor
           · rintro ⟨e, he⟩
             have := l2 e he
             subst this
             exact Or.inr (l1.mp he)
           · rintro (h | h)
             · omega
             · exact ⟨_, l1.mpr h⟩)
        | (constructor
           · intro h
             have := l2 _ h
             cases this
           · intro h; omega)
        | (rw [l1]; simp)

/-! ## Theorems: KeyFileCodec -/

theorem toChar_byte (c : Nat) (h : c < 256) : toChar (c : Int) = c := by
  unfold toChar; omega

theorem toUnsigned_nat (c : Nat) : toUnsigned (c : Int) = c % 2 ^ 32 := by
  unfold toUnsigned; omega

theorem toUnsigned_EOF : toUnsigned EOF = 4294967295 := by decide

theorem readLength_nil : readLength [] = (4294967039, []) := by decide

theorem readLength_short (buffer : Bytes) (h : buffer.length < 2) :
    (readLength buffer).1 % 256 = 255 := by
  match buffer, h with
  | [], _ => decide
  | [x], _ =>
    simp only [readLength, sbumpc, toUnsigned_nat, toUnsigned_EOF, Nat.shiftLeft_eq]
    omega

theorem readLength_bytes (hi lo : Nat) (rest : Bytes) (h1 : hi < 256) (h2 : lo < 256) :
    readLength (hi :: lo :: rest) = (hi * 256 + lo, rest) := by
  simp only [readLength, sbumpc, toUnsigned_nat, Nat.shiftLeft_eq, Prod.mk.injEq, and_true]
  omega

theorem readLength_snd (buffer : Bytes) : (readLength buffer).2 = buffer.drop 2 := by
  match buffer with
  | [] => rfl
  | [_] => rfl
  | _ :: _ :: _ => rfl

theorem readChars_snd (n : Nat) : ∀ buffer : Bytes, (readChars n buffer).2 = buffer.drop n := by
  induction n with
  | zero => intro buffer; rfl
  | succ n ih =>
    intro buffer
    cases buffer with
    | nil => simp [readChars, sbumpc, ih]
    | cons c rest => simp [readChars, sbumpc, ih]

theorem readChars_append (key rest : Bytes) (hk : ∀ c ∈ key, c < 256) :
    readChars key.length (key ++ rest) = (key, rest) := by
  induction key with
  | nil => rfl
  | cons c key ih =>
    have hc : c < 256 := hk c (List.mem_cons_self c key)
    have hs : ∀ x ∈ key, x < 256 := fun x hx => hk x (List.mem_cons_of_mem c hx)
    simp only [List.length_cons, List.cons_append, readChars, sbumpc, ih hs, toChar_byte c hc]

theorem loadKeyPairFrom_curve (rest : Bytes) :
    loadKeyPairFrom (0x05 :: rest) =
      if (readLength rest).1 ≠ 32 then .error (.invalidPublicKeyLength (readLength rest).1)
      else if (readLength (readChars (readLength rest).1 (readLength rest).2).2).1 ≠ 32 then
        .error (.invalidPrivateKeyLength
          (readLength (readChars (readLength rest).1 (readLength rest).2).2).1)
      else .ok (keyPairOf "curve25519" (readChars (readLength rest).1 (readLength rest).2).1
        (readChars (readLength (readChars (readLength rest).1 (readLength rest).2).2).1
          (readLength (readChars (readLength rest).1 (readLength rest).2).2).2).1) := rfl

theorem loadKeyPairFrom_ed (rest : Bytes) :
    loadKeyPairFrom (0x06 :: rest) =
      if (readLength rest).1 ≠ 32 then .error (.invalidPublicKeyLength (readLength rest).1)
      else if (readLength (readChars (readLength rest).1 (readLength rest).2).2).1 ≠ 64 then
        .error (.invalidPrivateKeyLength
          (readLength (readChars (readLength rest).1 (readLength rest).2).2).1)
      else .ok (keyPairOf "ed25519" (readChars (readLength rest).1 (readLength rest).2).1
        (readChars (readLength (readChars (readLength rest).1 (readLength rest).2).2).1
          (readLength (readChars (readLength rest).1 (readLength rest).2).2).2).1) := rfl

theorem loadKeyPairFrom_tag (tag : Nat) (htag : tag = 0x05 ∨ tag = 0x06) (rest : Bytes) :
    loadKeyPairFrom (tag :: rest) =
      if (readLength rest).1 ≠ 32 then .error (.invalidPublicKeyLength (readLength rest).1)
      else if (readLength (rest.drop 34)).1 ≠ privateKeyLengthOf tag then
        .error (.invalidPrivateKeyLength (readLength (rest.drop 34)).1)
      else .ok (keyPairOf (keyTypeOf tag) (readChars 32 (rest.drop 2)).1
        (readChars (privateKeyLengthOf tag) (rest.drop 36)).1) := by
  rcases htag with rfl | rfl
  · rw [loadKeyPairFrom_curve]
    by_cases h1 : (readLength rest).1 = 32
    · simp only [h1, readLength_snd, readChars_snd, List.drop_drop, ne_eq, not_true_eq_false,
        if_false, privateKeyLengthOf, keyTypeOf, if_true]
      by_cases h2 : (readLength (List.drop 34 rest)).1 = 32
      · simp only [h2, not_true_eq_false, if_false]
      · simp only [h2, not_false_eq_true, if_true]
    · simp only [h1, ne_eq, not_false_eq_true, if_true]
  · rw [loadKeyPairFrom_ed]
    by_cases h1 : (readLength rest).1 = 32
    · simp only [h1, readLength_snd, readChars_snd, List.drop_drop, ne_eq, not_true_eq_false,
        if_false, privateKeyLengthOf, keyTypeOf]
      by_cases h2 : (readLength (List.drop 34 rest)).1 = 64
      · simp [h2]
      · simp [h2]
    · simp only [h1, ne_eq, not_false_eq_true, if_true]

theorem privateKeyLengthOf_mod (tag : Nat) : privateKeyLengthOf tag % 256 ≠ 255 := by
  unfold privateKeyLengthOf; split <;> decide

theorem getline_cons (c : Nat) (rest : Bytes) (h : c ≠ 0x0A) :
    getline (some (c :: rest)) = c :: getline (some rest) := by
  simp [getline, List.takeWhile_cons, h]

theorem getline_length_le (content : Bytes) :
    (getline (some content)).length ≤ content.length :=
  (List.takeWhile_sublist _).length_le

theorem loadKeyPairFrom_short (tag : Nat) (htag : tag = 0x05 ∨ tag = 0x06) (rest : Bytes)
    (hlen : rest.length < 36) :
    ∃ n, loadKeyPairFrom (tag :: rest) = .error (.invalidPublicKeyLength n) ∨
      loadKeyPairFrom (tag :: rest) = .error (.invalidPrivateKeyLength n) := by
  rw [loadKeyPairFrom_tag tag htag]
  by_cases h1 : (readLength rest).1 = 32
  · have h2 : (readLength (rest.drop 34)).1 % 256 = 255 :=
      readLength_short _ (by rw [List.length_drop]; omega)
    have h3 : (readLength (rest.drop 34)).1 ≠ privateKeyLengthOf tag := by
      intro h; have := privateKeyLengthOf_mod tag; omega
    exact ⟨(readLength (rest.drop 34)).1, Or.inr (by simp only [h1, h3, ne_eq,
      not_true_eq_false, not_false_eq_true, if_false, if_true])⟩
  · exact ⟨(readLength rest).1, Or.inl (by simp only [h1, ne_eq, not_false_eq_true, if_true])⟩

/-- C3, amended. A byte stream that begins with a valid tag and ends inside the public-key
length, the public-key bytes or the private-key length (it holds fewer than 1 + 2 + 32 + 2
bytes) makes `loadKeyPair` throw, with one of its two invalid-key-length errors, and give no
key pair. -/
theorem loadKeyPair_fails_when_cut_before_private_key (fs : FileSystem) (filename : String)
    (content : Bytes) (tag : Nat) (hfile : fs.content filename = some content)
    (htag : tag = 0x05 ∨ tag = 0x06) (hhead : content.head? = some tag)
    (hlen : content.length < 37) :
    ∃ n, loadKeyPair fs filename = .error (.invalidPublicKeyLength n) ∨
      loadKeyPair fs filename = .error (.invalidPrivateKeyLength n) := by
  unfold loadKeyPair
  rw [hfile]
  match content, hhead, hlen with
  | c :: rest, hhead, hlen =>
    simp only [List.head?_cons, Option.some.injEq] at hhead
    subst hhead
    have hc : c ≠ 0x0A := by rcases htag with h | h <;> omega
    rw [getline_cons c rest hc]
    have := getline_length_le rest
    simp only [List.length_cons] at hlen
    exact loadKeyPairFrom_short c htag _ (by omega)

theorem charValue_eq_byte (c k : Nat) (hc : c < 256) (hk : k < 128) :
    charValue c = (k : Int) ↔ c = k := by
  unfold charValue
  split <;> omega

theorem loadKeyPairFrom_nil : loadKeyPairFrom [] = .error (.invalidKeyType (-1)) := by decide

theorem loadKeyPairFrom_bad_tag (c : Nat) (rest : Bytes) (hc : c < 256) (h5 : c ≠ 0x05)
    (h6 : c ≠ 0x06) : loadKeyPairFrom (c :: rest) = .error (.invalidKeyType (charValue c)) := by
  have e5 : ¬ charValue c = 5 := fun h => h5 ((charValue_eq_byte c 5 hc (by decide)).mp h)
  have e6 : ¬ charValue c = 6 := fun h => h6 ((charValue_eq_byte c 6 hc (by decide)).mp h)
  simp only [loadKeyPairFrom, sbumpc, toChar_byte c hc, e5, e6, or_self, not_false_eq_true,
    if_true]

theorem readLength_getline_ne (hi lo : Nat) (rest : Bytes) (expected : Nat) (h1 : hi < 256)
    (h2 : lo < 256) (hexp : expected % 256 ≠ 255) (hne : hi * 256 + lo ≠ expected) :
    (readLength (getline (some (hi :: lo :: rest)))).1 ≠ expected := by
  by_cases a1 : hi = 0x0A
  · subst a1
    intro h
    have : (readLength (getline (some (0x0A :: lo :: rest)))).1 % 256 = 255 :=
      readLength_short _ (by simp [getline])
    omega
  · rw [getline_cons hi _ a1]
    by_cases a2 : lo = 0x0A
    · subst a2
      intro h
      have : (readLength (hi :: getline (some (0x0A :: rest)))).1 % 256 = 255 :=
        readLength_short _ (by simp [getline])
      omega
    · rw [getline_cons lo _ a2, readLength_bytes hi lo _ h1 h2]
      exact hne

theorem drop_getline_append (key rest : Bytes) :
    (getline (some (key ++ rest))).drop key.length = [] ∨
      (getline (some (key ++ rest))).drop key.length = getline (some rest) := by
  induction key with
  | nil => right; rfl
  | cons c key ih =>
    by_cases hc : c = 0x0A
    · left; subst hc; simp [getline]
    · rw [List.cons_append, getline_cons c _ hc]
      simpa using ih

theorem loadKeyPairFrom_ok_head (keyStr : Bytes) (hb : ∀ c ∈ keyStr, c < 256)
    (kp : KeyPairMap) (h : loadKeyPairFrom keyStr = .ok kp) :
    ∃ tag, (tag = 0x05 ∨ tag = 0x06) ∧ keyStr.head? = some tag ∧
      kp.keyType = some (keyTypeOf tag) := by
  match keyStr, hb, h with
  | [], _, h => rw [loadKeyPairFrom_nil] at h; cases h
  | c :: rest, hb, h =>
    have hc : c < 256 := hb c (List.mem_cons_self c rest)
    by_cases h5 : c = 0x05
    · refine ⟨c, Or.inl h5, rfl, ?_⟩
      rw [loadKeyPairFrom_tag c (Or.inl h5)] at h
      split at h
      · cases h
      · split at h
        · cases h
        · cases h; rfl
    · by_cases h6 : c = 0x06
      · refine ⟨c, Or.inr h6, rfl, ?_⟩
        rw [loadKeyPairFrom_tag c (Or.inr h6)] at h
        split at h
        · cases h
        · split at h
          · cases h
          · cases h; rfl
      · rw [loadKeyPairFrom_bad_tag c rest hc h5 h6] at h; cases h

theorem getline_bytes (content : Bytes) (hb : ∀ c ∈ content, c < 256) :
    ∀ c ∈ getline (some content), c < 256 :=
  fun c hc => hb c ((List.takeWhile_sublist _).subset hc)

theorem getline_head (content : Bytes) (tag : Nat) (h : (getline (some content)).head? = some tag) :
    content.head? = some tag := by
  cases content with
  | nil => simp [getline] at h
  | cons c rest =>
    by_cases hc : c = 0x0A
    · subst hc; simp [getline] at h
    · rw [getline_cons c rest hc] at h; exact h

/-- C4. On every byte stream `loadKeyPair` throws "Invalid key type" when the first byte is not
`0x05` or `0x06` (or is absent); with a valid tag it throws "Invalid public key length" when the
two length bytes that follow do not spell 32, and "Invalid private key length" when the two
bytes declared after a 32-byte public key do not spell the length of the tag's kind (32 for
`0x05`, 64 for `0x06`); and a key pair it returns has the key type named by the tag. -/
theorem loadKeyPair_rejects_bad_tag_and_lengths (fs : FileSystem) (filename : String)
    (content : Bytes) (hfile : fs.content filename = some content)
    (hbytes : ∀ c ∈ content, c < 256) :
    ((content.head? ≠ some 0x05 ∧ content.head? ≠ some 0x06) →
      ∃ code, loadKeyPair fs filename = .error (.invalidKeyType code)) ∧
    (∀ tag hi lo rest, (tag = 0x05 ∨ tag = 0x06) → content = tag :: hi :: lo :: rest →
      hi * 256 + lo ≠ 32 →
      ∃ n, loadKeyPair fs filename = .error (.invalidPublicKeyLength n)) ∧
    (∀ tag publicKey hi lo rest, (tag = 0x05 ∨ tag = 0x06) →
      content = tag :: 0x00 :: 0x20 :: (publicKey ++ hi :: lo :: rest) →
      publicKey.length = 32 → hi * 256 + lo ≠ privateKeyLengthOf tag →
      ∃ n, loadKeyPair fs filename = .error (.invalidPrivateKeyLength n)) ∧
    (∀ kp, loadKeyPair fs filename = .ok kp →
      ∃ tag, (tag = 0x05 ∨ tag = 0x06) ∧ content.head? = some tag ∧
        kp.keyType = some (keyTypeOf tag)) := by
  unfold loadKeyPair
  rw [hfile]
  refine ⟨?_, ?_, ?_, ?_⟩
  · rintro ⟨h5, h6⟩
    match content, hbytes, h5, h6 with
    | [], _, _, _ => exact ⟨-1, loadKeyPairFrom_nil⟩
    | c :: rest, hb, h5, h6 =>
      have hc : c < 256 := hb c (List.mem_cons_self c rest)
      by_cases ha : c = 0x0A
      · subst ha
        exact ⟨-1, by simp [getline, loadKeyPairFrom_nil]⟩
      · rw [getline_cons c rest ha]
        exact ⟨_, loadKeyPairFrom_bad_tag c _ hc (fun h => h5 (by rw [h]; rfl))
          (fun h => h6 (by rw [h]; rfl))⟩
  · intro tag hi lo rest htag hcontent hne
    subst hcontent
    have htagA : tag ≠ 0x0A := by rcases htag with h | h <;> omega
    have h1 : hi < 256 := hbytes hi (by simp)
    have h2 : lo < 256 := hbytes lo (by simp)
    rw [getline_cons tag _ htagA, loadKeyPairFrom_tag tag htag]
    have := readLength_getline_ne hi lo rest 32 h1 h2 (by decide) hne
    refine ⟨(readLength (getline (some (hi :: lo :: rest)))).1, ?_⟩
    simp only [this, ne_eq, not_false_eq_true, if_true]
  · intro tag publicKey hi lo rest htag hcontent hpk hne
    subst hcontent
    have htagA : tag ≠ 0x0A := by rcases htag with h | h <;> omega
    have h1 : hi < 256 := hbytes hi (by simp)
    have h2 : lo < 256 := hbytes lo (by simp)
    rw [getline_cons tag _ htagA, getline_cons 0x00 _ (by decide),
      getline_cons 0x20 _ (by decide), loadKeyPairFrom_tag tag htag,
      readLength_bytes 0x00 0x20 _ (by decide) (by decide)]
    have hdrop : List.drop 34 (0x00 :: 0x20 :: getline (some (publicKey ++ hi :: lo :: rest))) =
        (getline (some (publicKey ++ hi :: lo :: rest))).drop publicKey.length := by
      rw [hpk]; rfl
    have hbad : (readLength (List.drop 34
        (0x00 :: 0x20 :: getline (some (publicKey ++ hi :: lo :: rest))))).1 ≠
        privateKeyLengthOf tag := by
      rw [hdrop]
      rcases drop_getline_append publicKey (hi :: lo :: rest) with h | h
      · rw [h]
        intro hh
        have := privateKeyLengthOf_mod tag
        rw [readLength_nil] at hh
        omega
      · rw [h]
        exact readLength_getline_ne hi lo rest _ h1 h2 (privateKeyLengthOf_mod tag) hne
    refine ⟨(readLength (List.drop 34
      (0x00 :: 0x20 :: getline (some (publicKey ++ hi :: lo :: rest))))).1, ?_⟩
    simp only [hbad, ne_eq, not_true_eq_false, not_false_eq_true, if_false, if_true]
  · intro kp hkp
    obtain ⟨tag, htag, hhead, hkind⟩ :=
      loadKeyPairFrom_ok_head _ (getline_bytes content hbytes) kp hkp
    exact ⟨tag, htag, getline_head content tag hhead, hkind⟩

theorem saveKeyPairStream_valid (tag : Nat) (htag : tag = 0x05 ∨ tag = 0x06)
    (publicKey privateKey : Bytes) (hpk : ∀ c ∈ publicKey, c < 256)
    (hsk : ∀ c ∈ privateKey, c < 256) :
    saveKeyPairStream (keyPairOf (keyTypeOf tag) publicKey privateKey) =
      ([tag, 0x00, 0x20] ++ publicKey ++ [0x00, privateKeyLengthOf tag] ++ privateKey, none) := by
  rcases htag with rfl | rfl
  · simp only [saveKeyPairStream, keyPairOf, keyTypeOf, privateKeyLengthOf,
      hexToStr_of_strToHex publicKey hpk, hexToStr_of_strToHex privateKey hsk, if_true]
    rfl
  · have hne : ¬ ("ed25519" = "curve25519") := by decide
    simp only [saveKeyPairStream, keyPairOf, keyTypeOf, privateKeyLengthOf,
      hexToStr_of_strToHex publicKey hpk, hexToStr_of_strToHex privateKey hsk, if_true, hne,
      if_false]
    rfl

theorem write_content (fs : FileSystem) (filename : String) (data : Bytes)
    (hw : fs.writable filename = true) : (fs.write filename data).content filename = some data := by
  simp [FileSystem.write, hw]

/-- C5. For a valid key pair the file `saveKeyPair` writes holds exactly the tag (`0x05`
Curve25519, `0x06` Ed25519), `0x00 0x20`, the 32 raw public-key bytes, the private-key length
in two big-endian bytes (`0x00 0x20`, or `0x00 0x40` for Ed25519) and the raw private-key
bytes; 69 bytes for Curve25519 and 101 for Ed25519. Nothing is thrown. -/
theorem saveKeyPair_writes_record (fs : FileSystem) (filename : String)
    (publicKey privateKey : Bytes) (hw : fs.writable filename = true)
    (hpk : ∀ c ∈ publicKey, c < 256) (hsk : ∀ c ∈ privateKey, c < 256)
    (hpkLen : publicKey.length = 32) :
    (privateKey.length = 32 →
      saveKeyPair fs filename (keyPairOf "curve25519" publicKey privateKey) =
        (fs.write filename ([0x05, 0x00, 0x20] ++ publicKey ++ [0x00, 0x20] ++ privateKey),
          none) ∧
      (fs.write filename ([0x05, 0x00, 0x20] ++ publicKey ++ [0x00, 0x20] ++ privateKey)).content
        filename = some ([0x05, 0x00, 0x20] ++ publicKey ++ [0x00, 0x20] ++ privateKey) ∧
      ([0x05, 0x00, 0x20] ++ publicKey ++ [0x00, 0x20] ++ privateKey).length = 69) ∧
    (privateKey.length = 64 →
      saveKeyPair fs filename (keyPairOf "ed25519" publicKey privateKey) =
        (fs.write filename ([0x06, 0x00, 0x20] ++ publicKey ++ [0x00, 0x40] ++ privateKey),
          none) ∧
      (fs.write filename ([0x06, 0x00, 0x20] ++ publicKey ++ [0x00, 0x40] ++ privateKey)).content
        filename = some ([0x06, 0x00, 0x20] ++ publicKey ++ [0x00, 0x40] ++ privateKey) ∧
      ([0x06, 0x00, 0x20] ++ publicKey ++ [0x00, 0x40] ++ privateKey).length = 101) := by
  have h5 := saveKeyPairStream_valid 0x05 (Or.inl rfl) publicKey privateKey hpk hsk
  have h6 := saveKeyPairStream_valid 0x06 (Or.inr rfl) publicKey privateKey hpk hsk
  constructor
  · intro hskLen
    refine ⟨?_, write_content fs filename _ hw, ?_⟩
    · unfold saveKeyPair
      rw [show "curve25519" = keyTypeOf 0x05 from rfl, h5]
      rfl
    · simp only [List.length_append, List.length_cons, List.length_nil, hpkLen, hskLen]
  · intro hskLen
    refine ⟨?_, write_content fs filename _ hw, ?_⟩
    · unfold saveKeyPair
      rw [show "ed25519" = keyTypeOf 0x06 from rfl, h6]
      rfl
    · simp only [List.length_append, List.length_cons, List.length_nil, hpkLen, hskLen]

/-- C5, at a Curve25519 pair (public key `0a 00 .. 00`) and an Ed25519 pair. -/
theorem saveKeyPair_writes_record_witness :
    (saveKeyPair emptyFileSystem "key"
        (keyPairOf "curve25519" (0x0A :: List.replicate 31 0x00) (List.replicate 32 0xFF)) =
      (emptyFileSystem.write "key" ([0x05, 0x00, 0x20] ++ (0x0A :: List.replicate 31 0x00) ++
        [0x00, 0x20] ++ List.replicate 32 0xFF), none) ∧
     (emptyFileSystem.write "key" ([0x05, 0x00, 0x20] ++ (0x0A :: List.replicate 31 0x00) ++
        [0x00, 0x20] ++ List.replicate 32 0xFF)).content "key" =
      some ([0x05, 0x00, 0x20] ++ (0x0A :: List.replicate 31 0x00) ++
        [0x00, 0x20] ++ List.replicate 32 0xFF) ∧
     ([0x05, 0x00, 0x20] ++ (0x0A :: List.replicate 31 0x00) ++
        [0x00, 0x20] ++ List.replicate 32 0xFF).length = 69) ∧
    (saveKeyPair emptyFileSystem "key"
        (keyPairOf "ed25519" (List.replicate 32 0x80) (List.replicate 64 0x01)) =
      (emptyFileSystem.write "key" ([0x06, 0x00, 0x20] ++ List.replicate 32 0x80 ++
        [0x00, 0x40] ++ List.replicate 64 0x01), none) ∧
     (emptyFileSystem.write "key" ([0x06, 0x00, 0x20] ++ List.replicate 32 0x80 ++
        [0x00, 0x40] ++ List.replicate 64 0x01)).content "key" =
      some ([0x06, 0x00, 0x20] ++ List.replicate 32 0x80 ++
        [0x00, 0x40] ++ List.replicate 64 0x01) ∧
     ([0x06, 0x00, 0x20] ++ List.replicate 32 0x80 ++
        [0x00, 0x40] ++ List.replicate 64 0x01).length = 101) :=
  ⟨(saveKeyPair_writes_record emptyFileSystem "key" (0x0A :: List.replicate 31 0x00)
      (List.replicate 32 0xFF) rfl (by decide) (by decide) rfl).1 rfl,
   (saveKeyPair_writes_record emptyFileSystem "key" (List.replicate 32 0x80)
      (List.replicate 64 0x01) rfl (by decide) (by decide) rfl).2 rfl⟩

/-- C3 fails as stated: a Curve25519 record cut after two of its 32 private-key bytes (39 bytes
instead of 69) is loaded, the missing key bytes read as `0xFF`; and the stream that ends right
after the tag is refused with "Invalid public key length : 4294967039", the error of a wrong
length, there being no error for a truncated input. -/
theorem loadKeyPair_accepts_cut_private_key :
    loadKeyPair (singleFile "key" ([0x05, 0x00, 0x20] ++ List.replicate 32 0x11 ++
        [0x00, 0x20, 0x22, 0x33])) "key" =
      .ok (keyPairOf "curve25519" (List.replicate 32 0x11)
        ([0x22, 0x33] ++ List.replicate 30 0xFF)) ∧
    loadKeyPair (singleFile "key" [0x05]) "key" =
      .error (.invalidPublicKeyLength 4294967039) := by
  refine ⟨by decide, by decide⟩

/-- C3 amended, at the one-byte stream `05` and at a stream cut inside the public key. -/
theorem loadKeyPair_fails_when_cut_before_private_key_witness :
    (∃ n, loadKeyPair (singleFile "key" [0x05]) "key" = .error (.invalidPublicKeyLength n) ∨
      loadKeyPair (singleFile "key" [0x05]) "key" = .error (.invalidPrivateKeyLength n)) ∧
    (∃ n, loadKeyPair (singleFile "key" [0x06, 0x00, 0x20, 0x01, 0x02]) "key" =
        .error (.invalidPublicKeyLength n) ∨
      loadKeyPair (singleFile "key" [0x06, 0x00, 0x20, 0x01, 0x02]) "key" =
        .error (.invalidPrivateKeyLength n)) :=
  ⟨loadKeyPair_fails_when_cut_before_private_key (singleFile "key" [0x05]) "key" [0x05] 0x05
      rfl (Or.inl rfl) rfl (by decide),
   loadKeyPair_fails_when_cut_before_private_key
      (singleFile "key" [0x06, 0x00, 0x20, 0x01, 0x02]) "key" [0x06, 0x00, 0x20, 0x01, 0x02] 0x06
      rfl (Or.inr rfl) rfl (by decide)⟩

/-- C4, at a stream with tag `0x07`, at a Curve25519 record declaring a 31-byte public key, at an
Ed25519 record declaring a 32-byte private key and at a complete Ed25519 record. -/
theorem loadKeyPair_rejects_bad_tag_and_lengths_witness :
    (∃ code, loadKeyPair (singleFile "key" (0x07 :: List.replicate 68 0x00)) "key" =
      .error (.invalidKeyType code)) ∧
    (∃ n, loadKeyPair (singleFile "key" (0x05 :: 0x00 :: 0x1F :: List.replicate 66 0x00)) "key" =
      .error (.invalidPublicKeyLength n)) ∧
    (∃ n, loadKeyPair (singleFile "key" (0x06 :: 0x00 :: 0x20 ::
        (List.replicate 32 0x01 ++ 0x00 :: 0x20 :: List.replicate 32 0x02))) "key" =
      .error (.invalidPrivateKeyLength n)) ∧
    (∃ tag, (tag = 0x05 ∨ tag = 0x06) ∧
      (0x06 :: 0x00 :: 0x20 :: (List.replicate 32 0x01 ++ 0x00 :: 0x40 ::
        List.replicate 64 0x02)).head? = some tag ∧
      (keyPairOf "ed25519" (List.replicate 32 0x01) (List.replicate 64 0x02)).keyType =
        some (keyTypeOf tag)) :=
  ⟨(loadKeyPair_rejects_bad_tag_and_lengths (singleFile "key" (0x07 :: List.replicate 68 0x00))
      "key" (0x07 :: List.replicate 68 0x00) rfl (by decide)).1 ⟨by decide, by decide⟩,
   (loadKeyPair_rejects_bad_tag_and_lengths
      (singleFile "key" (0x05 :: 0x00 :: 0x1F :: List.replicate 66 0x00)) "key"
      (0x05 :: 0x00 :: 0x1F :: List.replicate 66 0x00) rfl (by decide)).2.1
      0x05 0x00 0x1F (List.replicate 66 0x00) (Or.inl rfl) rfl (by decide),
   (loadKeyPair_rejects_bad_tag_and_lengths
      (singleFile "key" (0x06 :: 0x00 :: 0x20 ::
        (List.replicate 32 0x01 ++ 0x00 :: 0x20 :: List.replicate 32 0x02))) "key"
      (0x06 :: 0x00 :: 0x20 ::
        (List.replicate 32 0x01 ++ 0x00 :: 0x20 :: List.replicate 32 0x02)) rfl
      (by decide)).2.2.1
      0x06 (List.replicate 32 0x01) 0x00 0x20 (List.replicate 32 0x02) (Or.inr rfl) rfl rfl
      (by decide),
   (loadKeyPair_rejects_bad_tag_and_lengths
      (singleFile "key" (0x06 :: 0x00 :: 0x20 ::
        (List.replicate 32 0x01 ++ 0x00 :: 0x40 :: List.replicate 64 0x02))) "key"
      (0x06 :: 0x00 :: 0x20 ::
        (List.replicate 32 0x01 ++ 0x00 :: 0x40 :: List.replicate 64 0x02)) rfl
      (by decide)).2.2.2
      (keyPairOf "ed25519" (List.replicate 32 0x01) (List.replicate 64 0x02)) (by decide)⟩

/-! ## Theorems: the key file round trip -/

theorem getline_eq_self (content : Bytes) (h : ∀ c ∈ content, c ≠ 0x0A) :
    getline (some content) = content := by
  unfold getline
  rw [List.takeWhile_eq_self_iff]
  intro c hc
  simpa using h c hc

theorem privateKeyLengthOf_lt (tag : Nat) : privateKeyLengthOf tag < 256 := by
  unfold privateKeyLengthOf; split <;> decide

theorem privateKeyLengthOf_ne (tag : Nat) : privateKeyLengthOf tag ≠ 0x0A := by
  unfold privateKeyLengthOf; split <;> decide

/-- The round trip through the key file holds for the key pairs none of whose key bytes is a
line feed. -/
theorem loadKeyPair_saveKeyPair_of_no_line_feed (fs : FileSystem) (filename : String)
    (tag : Nat) (publicKey privateKey : Bytes) (hw : fs.writable filename = true)
    (htag : tag = 0x05 ∨ tag = 0x06)
    (hpk : ∀ c ∈ publicKey, c < 256) (hsk : ∀ c ∈ privateKey, c < 256)
    (hpkLen : publicKey.length = 32) (hskLen : privateKey.length = privateKeyLengthOf tag)
    (hpkLF : ∀ c ∈ publicKey, c ≠ 0x0A) (hskLF : ∀ c ∈ privateKey, c ≠ 0x0A) :
    (saveKeyPair fs filename (keyPairOf (keyTypeOf tag) publicKey privateKey)).2 = none ∧
    loadKeyPair (saveKeyPair fs filename (keyPairOf (keyTypeOf tag) publicKey privateKey)).1
      filename = .ok (keyPairOf (keyTypeOf tag) publicKey privateKey) := by
  unfold saveKeyPair
  rw [saveKeyPairStream_valid tag htag publicKey privateKey hpk hsk]
  refine ⟨rfl, ?_⟩
  unfold loadKeyPair
  simp only []
  rw [write_content fs filename _ hw]
  have htagA : tag ≠ 0x0A := by rcases htag with h | h <;> omega
  have hrec : [tag, 0x00, 0x20] ++ publicKey ++ [0x00, privateKeyLengthOf tag] ++ privateKey =
      tag :: 0x00 :: 0x20 :: (publicKey ++ 0x00 :: privateKeyLengthOf tag :: (privateKey ++ [])) := by
    simp
  rw [hrec, getline_eq_self, loadKeyPairFrom_tag tag htag,
    readLength_bytes 0x00 0x20 _ (by decide) (by decide)]
  · have d34 : List.drop 34 (0x00 :: 0x20 ::
        (publicKey ++ 0x00 :: privateKeyLengthOf tag :: (privateKey ++ []))) =
        0x00 :: privateKeyLengthOf tag :: (privateKey ++ []) := by
      rw [show (34 : Nat) = publicKey.length + 2 by omega]
      simp
    have d36 : List.drop 36 (0x00 :: 0x20 ::
        (publicKey ++ 0x00 :: privateKeyLengthOf tag :: (privateKey ++ []))) =
        privateKey ++ [] := by
      rw [show (36 : Nat) = publicKey.length + 4 by omega]
      simp
    have d2 : List.drop 2 (0x00 :: 0x20 ::
        (publicKey ++ 0x00 :: privateKeyLengthOf tag :: (privateKey ++ []))) =
        publicKey ++ 0x00 :: privateKeyLengthOf tag :: (privateKey ++ []) := rfl
    rw [d34, d36, d2, readLength_bytes 0x00 _ _ (by decide) (privateKeyLengthOf_lt tag)]
    have r1 := readChars_append publicKey
      (0x00 :: privateKeyLengthOf tag :: (privateKey ++ [])) hpk
    have r2 := readChars_append privateKey [] hsk
    rw [hpkLen] at r1
    rw [hskLen] at r2
    simp only [r1, r2, Nat.zero_mul, Nat.zero_add, ne_eq, not_true_eq_false, if_false]
  · intro c hc
    simp only [List.mem_cons, List.mem_append, List.mem_nil_iff, or_false] at hc
    rcases hc with h | h | h | h | h | h | h
    · omega
    · omega
    · omega
    · exact hpkLF c h
    · omega
    · rw [h]; exact privateKeyLengthOf_ne tag
    · exact hskLF c h

/-- C1 fails on the code. A Curve25519 pair whose public key starts with the line feed `0x0A` is
saved without error, but `loadKeyPair` reads the file with `getline`, keeps only `05 00 20`, and
throws "Invalid private key length : 4294967039". With the line feed among the private-key
bytes the load succeeds with another private key, the bytes from the line feed on read as
`0xFF`. In the create / save / clear / load scenario the load throws and `publicKeyInfo` then
finds no key. -/
theorem loadKeyPair_saveKeyPair_line_feed :
    (saveKeyPair emptyFileSystem "key"
      (keyPairOf "curve25519" (0x0A :: List.replicate 31 0x00) (List.replicate 32 0x00))).2 =
        none ∧
    loadKeyPair (saveKeyPair emptyFileSystem "key"
      (keyPairOf "curve25519" (0x0A :: List.replicate 31 0x00) (List.replicate 32 0x00))).1
        "key" = .error (.invalidPrivateKeyLength 4294967039) ∧
    loadKeyPair (saveKeyPair emptyFileSystem "key"
      (keyPairOf "curve25519" (List.replicate 32 0x01)
        (0x02 :: 0x0A :: List.replicate 30 0x03))).1 "key" =
      .ok (keyPairOf "curve25519" (List.replicate 32 0x01) (0x02 :: List.replicate 31 0xFF)) ∧
    keyPairOf "curve25519" (List.replicate 32 0x01) (0x02 :: List.replicate 31 0xFF) ≠
      keyPairOf "curve25519" (List.replicate 32 0x01)
        (0x02 :: 0x0A :: List.replicate 30 0x03) ∧
    (CreateKeyPair (exampleSodium (0x0A :: List.replicate 31 0x00) (List.replicate 32 0x00))
      emptyFileSystem { keyPair := none, filename_ := "" }
      [Value.string "curve25519", Value.string "key"]).2.2.2 =
      .returned (.publicKeyInfo "curve25519" (strToHex (0x0A :: List.replicate 31 0x00))) ∧
    Load (CreateKeyPair (exampleSodium (0x0A :: List.replicate 31 0x00) (List.replicate 32 0x00))
        emptyFileSystem { keyPair := none, filename_ := "" }
        [Value.string "curve25519", Value.string "key"]).2.1
      (Clear (CreateKeyPair
        (exampleSodium (0x0A :: List.replicate 31 0x00) (List.replicate 32 0x00))
        emptyFileSystem { keyPair := none, filename_ := "" }
        [Value.string "curve25519", Value.string "key"]).1).1
      [Value.string "key"] =
      ({ keyPair := none, filename_ := "key" },
        .threw (.what (.invalidPrivateKeyLength 4294967039))) ∧
    PublicKeyInfo { keyPair := none, filename_ := "key" } [] = .threw .noKeyInMemory := by
  refine ⟨by decide, by decide, by decide, by decide, by decide, by decide, by decide⟩

/-! ## Theorems: the binding layer -/

theorem cString_no_NUL (data : Bytes) : 0 ∉ cString data := by
  intro h
  have := List.mem_takeWhile_imp h
  simp at this

theorem MANDATORY_ARGS_exit (n : Nat) (args : List Value) (exit : Outcome)
    (h : MANDATORY_ARGS n args = some exit) :
    exit = .threw .mandatoryArgs ∧ args.length < n := by
  unfold MANDATORY_ARGS at h
  split at h
  · simp only [Option.some.injEq] at h
    exact ⟨h.symm, by assumption⟩
  · cases h

theorem MANDATORY_ARGS_pass (n : Nat) (args : List Value) (h : n ≤ args.length) :
    MANDATORY_ARGS n args = none := by
  unfold MANDATORY_ARGS
  rw [if_neg (by omega)]

theorem CHECK_KEYPAIR_exit (inst : KeyRing) (type : String) (exit : Outcome)
    (h : CHECK_KEYPAIR inst type = .error exit) :
    (inst.keyPair = none ∧ exit = .threw .noKeyPair) ∨
    (∃ keyPair, inst.keyPair = some keyPair ∧ keyPair.keyType = none ∧
      exit = .uncaught (.outOfRange "keyType")) ∨
    (∃ keyPair keyType, inst.keyPair = some keyPair ∧ keyPair.keyType = some keyType ∧
      keyType ≠ type ∧ exit = .threw .invalidKeyType) := by
  unfold CHECK_KEYPAIR at h
  cases hk : inst.keyPair with
  | none =>
    rw [hk] at h
    simp only [Except.error.injEq] at h
    exact Or.inl ⟨rfl, h.symm⟩
  | some keyPair =>
    rw [hk] at h
    cases ht : keyPair.keyType with
    | none =>
      simp only [KeyPairMap.atKeyType, ht, Except.error.injEq] at h
      exact Or.inr (Or.inl ⟨keyPair, rfl, ht, h.symm⟩)
    | some keyType =>
      simp only [KeyPairMap.atKeyType, ht] at h
      split at h
      · simp only [Except.error.injEq] at h
        exact Or.inr (Or.inr ⟨keyPair, keyType, rfl, ht, by assumption, h.symm⟩)
      · cases h

theorem CHECK_KEYPAIR_exit_not_returned (inst : KeyRing) (type : String) (exit : Outcome)
    (h : CHECK_KEYPAIR inst type = .error exit) (v : Result) : exit ≠ .returned v := by
  rcases CHECK_KEYPAIR_exit inst type exit h with ⟨_, h⟩ | ⟨_, _, _, h⟩ | ⟨_, _, _, _, _, h⟩ <;>
    (rw [h]; simp)

theorem Decrypt_result_has_no_NUL (S : Sodium) (inst : KeyRing) (args : List Value) (b : Bytes)
    (h : (Decrypt S inst args).2 = .returned (.buffer b)) : 0 ∉ b := by
  unfold Decrypt at h
  cases hm : MANDATORY_ARGS 3 args with
  | some exit =>
    rw [hm] at h
    rw [(MANDATORY_ARGS_exit 3 args exit hm).1] at h
    cases h
  | none =>
    rw [hm] at h
    cases hc : CHECK_KEYPAIR inst "curve25519" with
    | error exit =>
      rw [hc] at h
      exact absurd h (CHECK_KEYPAIR_exit_not_returned inst _ exit hc _)
    | ok keyPair =>
      rw [hc] at h
      simp only [] at h
      repeat' split at h
      all_goals
        first
          | (simp only [reduceCtorEq] at h; done)
          | (simp only [Outcome.returned.injEq, Result.buffer.injEq] at h
             rw [← h]
             exact cString_no_NUL _)

theorem CHECK_KEYPAIR_none (inst : KeyRing) (type : String) (h : inst.keyPair = none) :
    CHECK_KEYPAIR inst type = .error (.threw .noKeyPair) := by
  unfold CHECK_KEYPAIR; rw [h]

theorem CHECK_KEYPAIR_wrong (inst : KeyRing) (type : String) (keyPair : KeyPairMap)
    (keyType : String) (h : inst.keyPair = some keyPair) (ht : keyPair.keyType = some keyType)
    (hne : keyType ≠ type) : CHECK_KEYPAIR inst type = .error (.threw .invalidKeyType) := by
  unfold CHECK_KEYPAIR
  rw [h]
  simp only [KeyPairMap.atKeyType, ht, hne, ne_eq, not_false_eq_true, if_true]

theorem CHECK_KEYPAIR_pass (inst : KeyRing) (type : String) (keyPair : KeyPairMap)
    (h : inst.keyPair = some keyPair) (ht : keyPair.keyType = some type) :
    CHECK_KEYPAIR inst type = .ok keyPair := by
  unfold CHECK_KEYPAIR
  rw [h]
  simp only [KeyPairMap.atKeyType, ht, ne_eq, not_true_eq_false, if_false]

theorem Encrypt_exit (S : Sodium) (inst : KeyRing) (args : List Value) (exit : Outcome)
    (hargs : 3 ≤ args.length) (h : CHECK_KEYPAIR inst "curve25519" = .error exit) :
    Encrypt S inst args = ([], exit) := by
  unfold Encrypt; rw [MANDATORY_ARGS_pass 3 args hargs, h]

theorem Decrypt_exit (S : Sodium) (inst : KeyRing) (args : List Value) (exit : Outcome)
    (hargs : 3 ≤ args.length) (h : CHECK_KEYPAIR inst "curve25519" = .error exit) :
    Decrypt S inst args = ([], exit) := by
  unfold Decrypt; rw [MANDATORY_ARGS_pass 3 args hargs, h]

theorem Sign_exit (S : Sodium) (inst : KeyRing) (args : List Value) (exit : Outcome)
    (hargs : 1 ≤ args.length) (h : CHECK_KEYPAIR inst "ed25519" = .error exit) :
    Sign S inst args = ([], exit) := by
  unfold Sign; rw [MANDATORY_ARGS_pass 1 args hargs, h]

theorem Agree_exit (S : Sodium) (inst : KeyRing) (args : List Value) (exit : Outcome)
    (hargs : 1 ≤ args.length) (h : CHECK_KEYPAIR inst "curve25519" = .error exit) :
    Agree S inst args = ([], exit) := by
  unfold Agree; rw [MANDATORY_ARGS_pass 1 args hargs, h]

/-- C8, amended. When a call gives at least the mandatory number of arguments (3 for encrypt and
decrypt, 1 for sign and agree), whatever the arguments are: on a ring without key pair each of
the four operations throws "No key pair has been loaded into the key ring"; on a ring whose key
pair has another type than the operation requires (Curve25519 for encrypt, decrypt and agree,
Ed25519 for sign) it throws "Invalid key type"; in both cases no primitive is called, and no
length of an argument has been looked at. -/
theorem key_pair_check_comes_first (S : Sodium) (inst : KeyRing) (args : List Value) :
    (inst.keyPair = none →
      (3 ≤ args.length →
        Encrypt S inst args = ([], .threw .noKeyPair) ∧
        Decrypt S inst args = ([], .threw .noKeyPair)) ∧
      (1 ≤ args.length →
        Sign S inst args = ([], .threw .noKeyPair) ∧
        Agree S inst args = ([], .threw .noKeyPair))) ∧
    (∀ keyPair keyType, inst.keyPair = some keyPair → keyPair.keyType = some keyType →
      (keyType ≠ "curve25519" →
        (3 ≤ args.length →
          Encrypt S inst args = ([], .threw .invalidKeyType) ∧
          Decrypt S inst args = ([], .threw .invalidKeyType)) ∧
        (1 ≤ args.length → Agree S inst args = ([], .threw .invalidKeyType))) ∧
      (keyType ≠ "ed25519" → 1 ≤ args.length →
        Sign S inst args = ([], .threw .invalidKeyType))) := by
  refine ⟨fun hnone => ⟨fun h3 => ⟨?_, ?_⟩, fun h1 => ⟨?_, ?_⟩⟩,
    fun keyPair keyType hk ht => ⟨fun hne => ⟨fun h3 => ⟨?_, ?_⟩, fun h1 => ?_⟩,
      fun hne h1 => ?_⟩⟩
  · exact Encrypt_exit S inst args _ h3 (CHECK_KEYPAIR_none inst _ hnone)
  · exact Decrypt_exit S inst args _ h3 (CHECK_KEYPAIR_none inst _ hnone)
  · exact Sign_exit S inst args _ h1 (CHECK_KEYPAIR_none inst _ hnone)
  · exact Agree_exit S inst args _ h1 (CHECK_KEYPAIR_none inst _ hnone)
  · exact Encrypt_exit S inst args _ h3 (CHECK_KEYPAIR_wrong inst _ keyPair keyType hk ht hne)
  · exact Decrypt_exit S inst args _ h3 (CHECK_KEYPAIR_wrong inst _ keyPair keyType hk ht hne)
  · exact Agree_exit S inst args _ h1 (CHECK_KEYPAIR_wrong inst _ keyPair keyType hk ht hne)
  · exact Sign_exit S inst args _ h1 (CHECK_KEYPAIR_wrong inst _ keyPair keyType hk ht hne)

/-- C8 amended, on an empty ring and on rings holding a key pair of the other type, called with
arguments of wrong lengths (an empty public key, an empty nonce). -/
theorem key_pair_check_comes_first_witness :
    (Encrypt (exampleSodium [] []) { keyPair := none, filename_ := "" }
        [Value.buffer [0x01], Value.buffer [], Value.buffer []] = ([], .threw .noKeyPair) ∧
     Decrypt (exampleSodium [] []) { keyPair := none, filename_ := "" }
        [Value.buffer [0x01], Value.buffer [], Value.buffer []] = ([], .threw .noKeyPair)) ∧
    (Encrypt (exampleSodium [] []) (ringOf "ed25519" (List.replicate 32 1) (List.replicate 64 2))
        [Value.buffer [0x01], Value.buffer [], Value.buffer []] = ([], .threw .invalidKeyType) ∧
     Decrypt (exampleSodium [] []) (ringOf "ed25519" (List.replicate 32 1) (List.replicate 64 2))
        [Value.buffer [0x01], Value.buffer [], Value.buffer []] =
          ([], .threw .invalidKeyType)) ∧
    Sign (exampleSodium [] []) (ringOf "curve25519" (List.replicate 32 1) (List.replicate 32 2))
        [Value.buffer [0x01], Value.buffer [], Value.buffer []] = ([], .threw .invalidKeyType) :=
  ⟨((key_pair_check_comes_first (exampleSodium [] []) { keyPair := none, filename_ := "" }
      [Value.buffer [0x01], Value.buffer [], Value.buffer []]).1 rfl).1 (by decide),
   (((key_pair_check_comes_first (exampleSodium [] [])
      (ringOf "ed25519" (List.replicate 32 1) (List.replicate 64 2))
      [Value.buffer [0x01], Value.buffer [], Value.buffer []]).2 _ "ed25519" rfl rfl).1
        (by decide)).1 (by decide),
   ((key_pair_check_comes_first (exampleSodium [] [])
      (ringOf "curve25519" (List.replicate 32 1) (List.replicate 32 2))
      [Value.buffer [0x01], Value.buffer [], Value.buffer []]).2 _ "curve25519" rfl rfl).2
        (by decide) (by decide)⟩

/-- C8 fails as stated: called without arguments on an empty ring, and with two arguments on a
ring holding an Ed25519 key pair, `Encrypt` reports the missing arguments, not the missing key
pair or its wrong type: `MANDATORY_ARGS` comes before `CHECK_KEYPAIR`. `Sign` without argument
does the same. -/
theorem mandatory_args_precede_key_pair_check :
    Encrypt (exampleSodium [] []) { keyPair := none, filename_ := "" } [] =
      ([], .threw .mandatoryArgs) ∧
    Encrypt (exampleSodium [] []) (ringOf "ed25519" (List.replicate 32 1) (List.replicate 64 2))
      [Value.buffer [0x01], Value.buffer (List.replicate 32 3)] = ([], .threw .mandatoryArgs) ∧
    Sign (exampleSodium [] []) { keyPair := none, filename_ := "" } [] =
      ([], .threw .mandatoryArgs) ∧
    Outcome.threw JsError.mandatoryArgs ≠ Outcome.threw JsError.noKeyPair ∧
    Outcome.threw JsError.mandatoryArgs ≠ Outcome.threw JsError.invalidKeyType := by
  refine ⟨by decide, by decide, by decide, by decide, by decide⟩

/-- C2 fails on the code. With box stand-ins that are mutually inverse, the message `61 00 62`
sealed by `Encrypt` on one ring comes back from `Decrypt` on the counterpart's ring as the
single byte `61`: `BUILD_BUFFER` sizes the result with `strlen`, which stops at the first zero
byte of the plaintext. -/
theorem Decrypt_Encrypt_stops_at_NUL :
    (∀ m n pk sk pk2 sk2 : Bytes,
      (exampleSodium [] []).crypto_box_open ((exampleSodium [] []).crypto_box m n pk2 sk).2
        n pk sk2 = (0, m)) ∧
    Encrypt (exampleSodium [] [])
        (ringOf "curve25519" (List.replicate 32 0x01) (List.replicate 32 0x02))
        [Value.buffer [0x61, 0x00, 0x62], Value.buffer (List.replicate 32 0x03),
          Value.buffer (List.replicate 24 0x05)] =
      ([PrimCall.crypto_box (List.replicate 32 0x00 ++ [0x61, 0x00, 0x62])
          (List.replicate 24 0x05) (List.replicate 32 0x03) (List.replicate 32 0x02)],
        .returned (.buffer (List.replicate 32 0x00 ++ [0x61, 0x00, 0x62]))) ∧
    Decrypt (exampleSodium [] [])
        (ringOf "curve25519" (List.replicate 32 0x03) (List.replicate 32 0x04))
        [Value.buffer (List.replicate 32 0x00 ++ [0x61, 0x00, 0x62]),
          Value.buffer (List.replicate 32 0x01), Value.buffer (List.replicate 24 0x05)] =
      ([PrimCall.crypto_box_open (List.replicate 32 0x00 ++ [0x61, 0x00, 0x62])
          (List.replicate 24 0x05) (List.replicate 32 0x01) (List.replicate 32 0x04)],
        .returned (.buffer [0x61])) := by
  refine ⟨fun _ _ _ _ _ _ => rfl, by decide, by decide⟩

theorem Agree_of_key (S : Sodium) (publicKey privateKey : Bytes) (args : List Value)
    (hsk : ∀ c ∈ privateKey, c < 256) (hargs : 1 ≤ args.length) :
    Agree S (ringOf "curve25519" publicKey privateKey) args =
      ([PrimCall.crypto_scalarmult privateKey (arg args 0).data],
        if args.length = 1 then
          .returned (.buffer (S.crypto_scalarmult privateKey (arg args 0).data))
        else
          .calledBack [.buffer (BUILD_BUFFER
            ((S.crypto_scalarmult privateKey (arg args 0).data).take crypto_scalarmult_BYTES))]) := by
  unfold Agree
  rw [MANDATORY_ARGS_pass 1 args hargs,
    CHECK_KEYPAIR_pass (ringOf "curve25519" publicKey privateKey) "curve25519"
      (keyPairOf "curve25519" publicKey privateKey) rfl rfl]
  simp only [KeyPairMap.atPrivateKey, keyPairOf, hexToStr_of_strToHex privateKey hsk]
  split <;> rfl

/-- C9 fails on the code. On a ring holding a Curve25519 key pair `Agree` hands a counterpart key
of 31 bytes, and an empty one, to `crypto_scalarmult` and returns the 32-byte buffer: it has no
length check. -/
theorem Agree_takes_short_key :
    Agree (exampleSodium [] [])
        (ringOf "curve25519" (List.replicate 32 0x01) (List.replicate 32 0x02))
        [Value.buffer (List.replicate 31 0x09)] =
      ([PrimCall.crypto_scalarmult (List.replicate 32 0x02) (List.replicate 31 0x09)],
        .returned (.buffer (List.replicate 32 0x00))) ∧
    Agree (exampleSodium [] [])
        (ringOf "curve25519" (List.replicate 32 0x01) (List.replicate 32 0x02))
        [Value.buffer []] =
      ([PrimCall.crypto_scalarmult (List.replicate 32 0x02) []],
        .returned (.buffer (List.replicate 32 0x00))) := by
  refine ⟨by decide, by decide⟩

theorem loadKeyPairFrom_error_ptr (keyStr : Bytes) (e : Exn)
    (h : loadKeyPairFrom keyStr = .error e) : e.isRuntimeErrorPtr = true := by
  unfold loadKeyPairFrom at h
  simp only [] at h
  repeat' split at h
  all_goals
    first
      | (simp only [reduceCtorEq] at h)
      | (simp only [Except.error.injEq] at h; rw [← h]; rfl)

/-- C10. Whatever the ring holds and whatever the file holds (or if there is no file): when
`loadKeyPair` throws, `Load` throws the error message and the ring, key pair and file name, is
as before; when `loadKeyPair` returns a key pair, the ring afterwards holds exactly that key
pair and the path given as its file name. -/
theorem Load_replaces_only_on_success (fs : FileSystem) (inst : KeyRing) (args : List Value)
    (hargs : 1 ≤ args.length) :
    (∀ e, loadKeyPair fs (arg args 0).utf8 = .error e →
      Load fs inst args = (inst, .threw (.what e))) ∧
    (∀ newKeyPair, loadKeyPair fs (arg args 0).utf8 = .ok newKeyPair →
      (Load fs inst args).1 =
        { keyPair := some newKeyPair, filename_ := (arg args 0).utf8 }) := by
  constructor
  · intro e he
    unfold Load
    rw [MANDATORY_ARGS_pass 1 args hargs]
    simp only [he, loadKeyPairFrom_error_ptr _ e he, if_true]
  · intro newKeyPair hk
    unfold Load
    rw [MANDATORY_ARGS_pass 1 args hargs]
    simp only [hk]

/-- C10, on a ring holding an Ed25519 key pair: loading a file with tag `0x07` leaves the ring
as it was, loading a Curve25519 record replaces the key pair and the file name. -/
theorem Load_replaces_only_on_success_witness :
    Load (singleFile "bad" [0x07])
        (ringOf "ed25519" (List.replicate 32 0x01) (List.replicate 64 0x02))
        [Value.string "bad"] =
      (ringOf "ed25519" (List.replicate 32 0x01) (List.replicate 64 0x02),
        .threw (.what (.invalidKeyType 7))) ∧
    (Load (singleFile "good" ([0x05, 0x00, 0x20] ++ List.replicate 32 0x03 ++ [0x00, 0x20] ++
          List.replicate 32 0x04))
        (ringOf "ed25519" (List.replicate 32 0x01) (List.replicate 64 0x02))
        [Value.string "good"]).1 =
      { keyPair := some (keyPairOf "curve25519" (List.replicate 32 0x03)
          (List.replicate 32 0x04)),
        filename_ := "good" } :=
  ⟨(Load_replaces_only_on_success (singleFile "bad" [0x07])
      (ringOf "ed25519" (List.replicate 32 0x01) (List.replicate 64 0x02))
      [Value.string "bad"] (by decide)).1 _ (by decide),
   (Load_replaces_only_on_success
      (singleFile "good" ([0x05, 0x00, 0x20] ++ List.replicate 32 0x03 ++ [0x00, 0x20] ++
          List.replicate 32 0x04))
      (ringOf "ed25519" (List.replicate 32 0x01) (List.replicate 64 0x02))
      [Value.string "good"] (by decide)).2 _ (by decide)⟩

/-! ## Theorems: the constructor -/

theorem construct_missing (fs : FileSystem) (filename : String) (hname : filename ≠ "")
    (hfile : fs.content filename = none) :
    construct fs filename = .ok { keyPair := none, filename_ := filename } := by
  simp [construct, doesFileExist, hname, hfile]

theorem construct_unparsable (fs : FileSystem) (filename : String) (content : Bytes) (e : Exn)
    (hname : filename ≠ "") (hfile : fs.content filename = some content)
    (hload : loadKeyPair fs filename = .error e) :
    construct fs filename = .error e := by
  simp [construct, doesFileExist, hname, hfile, hload]

/-- C11 fails on the code. Constructing a key ring from the non-empty path `"missing.key"`, at
which there is no file, does not fail: the constructor returns early and `New` wraps and returns
an empty ring carrying that file name, on which `CreateKeyPair` then works as on any empty ring.
Constructing from a file that does not parse (tag `0x07`) does fail, the exception of
`loadKeyPair` leaving the constructor. -/
theorem construct_from_missing_file :
    "missing.key" ≠ "" ∧ emptyFileSystem.content "missing.key" = none ∧
    construct emptyFileSystem "missing.key" =
      .ok { keyPair := none, filename_ := "missing.key" } ∧
    New emptyFileSystem true [Value.string "missing.key"] =
      .wrapped { keyPair := none, filename_ := "missing.key" } ∧
    New emptyFileSystem false [Value.string "missing.key"] =
      .wrapped { keyPair := none, filename_ := "missing.key" } ∧
    (CreateKeyPair (exampleSodium (List.replicate 32 0x01) (List.replicate 32 0x02))
      emptyFileSystem { keyPair := none, filename_ := "missing.key" }
      [Value.string "curve25519"]).2.2.2 =
      .returned (.publicKeyInfo "curve25519" (strToHex (List.replicate 32 0x01))) ∧
    construct (singleFile "bad.key" [0x07]) "bad.key" = .error (.invalidKeyType 7) ∧
    New (singleFile "bad.key" [0x07]) true [Value.string "bad.key"] =
      .uncaught (.invalidKeyType 7) := by
  refine ⟨by decide, by decide, by decide, by decide, by decide, by decide, by decide, by decide⟩

/-! ## Theorems: Encrypt and Decrypt -/

theorem storeInto_length (buffer out : Bytes) : (storeInto buffer out).length = buffer.length := by
  simp only [storeInto, List.length_append, List.length_take, List.length_drop]
  omega

theorem storeInto_of_length (buffer out : Bytes) (h : out.length = buffer.length) :
    storeInto buffer out = out := by
  unfold storeInto
  rw [← h, List.take_length, List.drop_eq_nil_of_le (by omega), List.append_nil]

theorem freshBuffer_length (length : Nat) : (freshBuffer length).length = length := by
  simp [freshBuffer]

theorem scanZeros_zeros (rest : Bytes) :
    scanZeros crypto_box_BOXZEROBYTES (List.replicate 16 0 ++ rest) 0 = some 16 := rfl

theorem Encrypt_of_hex (S : Sodium) (inst : KeyRing) (keyPair : KeyPairMap)
    (privateKeyHex privateKey m pk n : Bytes) (rest : List Value)
    (hring : inst.keyPair = some keyPair) (htype : keyPair.keyType = some "curve25519")
    (hhex : keyPair.privateKey = some privateKeyHex)
    (hdec : hexToStr privateKeyHex = .ok privateKey)
    (hpk : pk.length = 32) (hn : n.length = 24) :
    Encrypt S inst (Value.buffer m :: Value.buffer pk :: Value.buffer n :: rest) =
      ([PrimCall.crypto_box (List.replicate 32 0 ++ m) n pk privateKey],
        if (S.crypto_box (List.replicate 32 0 ++ m) n pk privateKey).1 ≠ 0 then
          .threw (.encrypting (S.crypto_box (List.replicate 32 0 ++ m) n pk privateKey).1)
        else if rest = [] then
          .returned (.buffer (storeInto (freshBuffer (m.length + 32))
            (S.crypto_box (List.replicate 32 0 ++ m) n pk privateKey).2))
        else
          .calledBack [.buffer (cString (storeInto (freshBuffer (m.length + 32))
            (S.crypto_box (List.replicate 32 0 ++ m) n pk privateKey).2))]) := by
  unfold Encrypt
  rw [MANDATORY_ARGS_pass 3 _ (by simp),
    CHECK_KEYPAIR_pass inst "curve25519" keyPair hring htype]
  have htake : ∀ out : Bytes, List.take (m.length + 32)
      (storeInto (freshBuffer (m.length + 32)) out) =
      storeInto (freshBuffer (m.length + 32)) out := fun out =>
    List.take_of_length_le (by rw [storeInto_length, freshBuffer_length])
  simp only [arg, List.getD_cons_zero, List.getD_cons_succ, Value.buffer, hpk, hn,
    KeyPairMap.atPrivateKey, hhex, hdec,
    crypto_box_ZEROBYTES, crypto_box_PUBLICKEYBYTES, crypto_box_NONCEBYTES, BUILD_BUFFER, ne_eq,
    not_true_eq_false, if_false, List.length_cons, htake]
  by_cases hst : (S.crypto_box (List.replicate 32 0 ++ m) n pk privateKey).1 = 0
  · simp only [hst, not_true_eq_false, if_false]
    cases rest with
    | nil => simp
    | cons v rest => simp
  · simp only [hst, not_false_eq_true, if_true]

theorem Encrypt_of_key (S : Sodium) (inst : KeyRing) (publicKey privateKey m pk n : Bytes)
    (rest : List Value)
    (hring : inst.keyPair = some (keyPairOf "curve25519" publicKey privateKey))
    (hsk : ∀ c ∈ privateKey, c < 256) (hpk : pk.length = 32) (hn : n.length = 24) :
    Encrypt S inst (Value.buffer m :: Value.buffer pk :: Value.buffer n :: rest) =
      ([PrimCall.crypto_box (List.replicate 32 0 ++ m) n pk privateKey],
        if (S.crypto_box (List.replicate 32 0 ++ m) n pk privateKey).1 ≠ 0 then
          .threw (.encrypting (S.crypto_box (List.replicate 32 0 ++ m) n pk privateKey).1)
        else if rest = [] then
          .returned (.buffer (storeInto (freshBuffer (m.length + 32))
            (S.crypto_box (List.replicate 32 0 ++ m) n pk privateKey).2))
        else
          .calledBack [.buffer (cString (storeInto (freshBuffer (m.length + 32))
            (S.crypto_box (List.replicate 32 0 ++ m) n pk privateKey).2))]) :=
  Encrypt_of_hex S inst (keyPairOf "curve25519" publicKey privateKey) (strToHex privateKey)
    privateKey m pk n rest hring rfl rfl (hexToStr_of_strToHex privateKey hsk) hpk hn

/-- What `Decrypt` gives back for what `Encrypt` sealed, for every message: when the sealed
buffer `c` has the length of the padded message and starts with 16 zero bytes, and opening it
on the counterpart's side gives the padded message back, `Encrypt` returns `c` and `Decrypt`
returns the message cut at its first zero byte. -/
theorem Decrypt_Encrypt_gives_cString (S : Sodium) (pkA skA pkB skB m n c : Bytes)
    (hskA : ∀ x ∈ skA, x < 256) (hskB : ∀ x ∈ skB, x < 256)
    (hpkB : pkB.length = 32) (hn : n.length = 24)
    (hseal : S.crypto_box (List.replicate 32 0 ++ m) n pkB skA = (0, c))
    (hzeros : c.take 16 = List.replicate 16 0) (hclen : c.length = m.length + 32)
    (hopen : S.crypto_box_open c n pkA skB = (0, List.replicate 32 0 ++ m)) :
    Encrypt S (ringOf "curve25519" pkA skA)
        [Value.buffer m, Value.buffer pkB, Value.buffer n] =
      ([PrimCall.crypto_box (List.replicate 32 0 ++ m) n pkB skA], .returned (.buffer c)) ∧
    Decrypt S (ringOf "curve25519" pkB skB)
        [Value.buffer c, Value.buffer pkA, Value.buffer n] =
      ([PrimCall.crypto_box_open c n pkA skB], .returned (.buffer (cString m))) := by
  constructor
  · rw [Encrypt_of_key S (ringOf "curve25519" pkA skA) pkA skA m pkB n [] rfl hskA hpkB hn,
      hseal, storeInto_of_length _ c (by rw [freshBuffer_length, hclen])]
    simp
  · have hc : c = List.replicate 16 0 ++ c.drop 16 := by
      rw [← hzeros, List.take_append_drop]
    have hscan : scanZeros 16 c 0 = some 16 := by
      rw [hc]; exact scanZeros_zeros _
    have hplain : List.take (c.length - 32) (List.drop 32 (List.replicate 32 0 ++ m)) = m := by
      rw [hclen, List.drop_left' (by simp)]
      simp
    have hlong : ¬ c.length < 32 := by omega
    unfold Decrypt
    rw [MANDATORY_ARGS_pass 3 _ (by simp),
      CHECK_KEYPAIR_pass (ringOf "curve25519" pkB skB) "curve25519"
        (keyPairOf "curve25519" pkB skB) rfl rfl]
    simp only [arg, List.getD_cons_zero, List.getD_cons_succ, Value.buffer, hscan,
      KeyPairMap.atPrivateKey, keyPairOf, hexToStr_of_strToHex skB hskB, crypto_box_ZEROBYTES,
      crypto_box_BOXZEROBYTES, hopen, hplain, hlong, BUILD_BUFFER, ne_eq, not_true_eq_false,
      if_false, List.length_cons, List.length_nil, if_true, lt_self_iff_false]

/-- C12, amended. On a ring holding a Curve25519 key pair, for every message `m`, every 32-byte
counterpart public key and every 24-byte nonce (with or without a callback), `Encrypt` calls
the sealing primitive once, on exactly 32 zero bytes (`crypto_box_ZEROBYTES`) followed by the
bytes of `m`, `len(m) + 32` bytes, together with the given nonce, the counterpart public key
and the ring's private key decoded from its hexadecimal form. On a non-zero status it throws;
on status 0 the 3-argument call returns the buffer the primitive stored the sealed bytes in,
which has that same length `len(m) + 32`. -/
theorem Encrypt_seals_padded_message (S : Sodium) (inst : KeyRing) (keyPair : KeyPairMap)
    (privateKeyHex privateKey m pk n : Bytes) (rest : List Value)
    (hring : inst.keyPair = some keyPair) (htype : keyPair.keyType = some "curve25519")
    (hhex : keyPair.privateKey = some privateKeyHex)
    (hdec : hexToStr privateKeyHex = .ok privateKey)
    (hpk : pk.length = 32) (hn : n.length = 24) :
    Encrypt S inst (Value.buffer m :: Value.buffer pk :: Value.buffer n :: rest) =
      ([PrimCall.crypto_box (List.replicate 32 0 ++ m) n pk privateKey],
        if (S.crypto_box (List.replicate 32 0 ++ m) n pk privateKey).1 ≠ 0 then
          .threw (.encrypting (S.crypto_box (List.replicate 32 0 ++ m) n pk privateKey).1)
        else if rest = [] then
          .returned (.buffer (storeInto (freshBuffer (m.length + 32))
            (S.crypto_box (List.replicate 32 0 ++ m) n pk privateKey).2))
        else
          .calledBack [.buffer (cString (storeInto (freshBuffer (m.length + 32))
            (S.crypto_box (List.replicate 32 0 ++ m) n pk privateKey).2))]) ∧
    (List.replicate 32 0 ++ m).length = m.length + 32 ∧
    (storeInto (freshBuffer (m.length + 32))
      (S.crypto_box (List.replicate 32 0 ++ m) n pk privateKey).2).length = m.length + 32 ∧
    ((S.crypto_box (List.replicate 32 0 ++ m) n pk privateKey).2.length = m.length + 32 →
      storeInto (freshBuffer (m.length + 32))
        (S.crypto_box (List.replicate 32 0 ++ m) n pk privateKey).2 =
        (S.crypto_box (List.replicate 32 0 ++ m) n pk privateKey).2) := by
  refine ⟨Encrypt_of_hex S inst keyPair privateKeyHex privateKey m pk n rest hring htype hhex
    hdec hpk hn, ?_, ?_, ?_⟩
  · simp only [List.length_append, List.length_replicate]; omega
  · rw [storeInto_length, freshBuffer_length]
  · intro hlen
    exact storeInto_of_length _ _ (by rw [freshBuffer_length, hlen])

/-- C12 amended, on the message `61 00 62` with a sealing stand-in that reports status 0 and
stores the bytes it is given: the 3-argument call returns 35 bytes. -/
theorem Encrypt_seals_padded_message_witness :
    Encrypt (exampleSodium [] [])
        (ringOf "curve25519" (List.replicate 32 0x01) (List.replicate 32 0x02))
        [Value.buffer [0x61, 0x00, 0x62], Value.buffer (List.replicate 32 0x03),
          Value.buffer (List.replicate 24 0x05)] =
      ([PrimCall.crypto_box (List.replicate 32 0 ++ [0x61, 0x00, 0x62]) (List.replicate 24 0x05)
          (List.replicate 32 0x03) (List.replicate 32 0x02)],
        .returned (.buffer (List.replicate 32 0 ++ [0x61, 0x00, 0x62]))) ∧
    (List.replicate 32 0 ++ [0x61, 0x00, 0x62] : Bytes).length = 35 ∧
    storeInto (freshBuffer ([0x61, 0x00, 0x62].length + 32))
        ((exampleSodium [] []).crypto_box (List.replicate 32 0 ++ [0x61, 0x00, 0x62])
          (List.replicate 24 0x05) (List.replicate 32 0x03) (List.replicate 32 0x02)).2 =
      ((exampleSodium [] []).crypto_box (List.replicate 32 0 ++ [0x61, 0x00, 0x62])
        (List.replicate 24 0x05) (List.replicate 32 0x03) (List.replicate 32 0x02)).2 :=
  ⟨(Encrypt_seals_padded_message (exampleSodium [] [])
      (ringOf "curve25519" (List.replicate 32 0x01) (List.replicate 32 0x02))
      (keyPairOf "curve25519" (List.replicate 32 0x01) (List.replicate 32 0x02))
      (strToHex (List.replicate 32 0x02)) (List.replicate 32 0x02) [0x61, 0x00, 0x62]
      (List.replicate 32 0x03) (List.replicate 24 0x05) [] rfl rfl rfl (by decide) rfl rfl).1,
   by decide,
   (Encrypt_seals_padded_message (exampleSodium [] [])
      (ringOf "curve25519" (List.replicate 32 0x01) (List.replicate 32 0x02))
      (keyPairOf "curve25519" (List.replicate 32 0x01) (List.replicate 32 0x02))
      (strToHex (List.replicate 32 0x02)) (List.replicate 32 0x02) [0x61, 0x00, 0x62]
      (List.replicate 32 0x03) (List.replicate 24 0x05) [] rfl rfl rfl (by decide) rfl
      rfl).2.2.2 rfl⟩

/-- C12 fails as stated: for the one-byte message `61` the buffer `Encrypt` hands to
`crypto_box` is 32 zero bytes followed by `61`, 33 bytes, and the buffer it returns has 33
bytes; the claim has 16 zero bytes and `len(m) + 16 = 17` bytes. -/
theorem Encrypt_pads_with_32_zero_bytes :
    Encrypt (exampleSodium [] [])
        (ringOf "curve25519" (List.replicate 32 0x01) (List.replicate 32 0x02))
        [Value.buffer [0x61], Value.buffer (List.replicate 32 0x03),
          Value.buffer (List.replicate 24 0x05)] =
      ([PrimCall.crypto_box (List.replicate 32 0 ++ [0x61]) (List.replicate 24 0x05)
          (List.replicate 32 0x03) (List.replicate 32 0x02)],
        .returned (.buffer (List.replicate 32 0 ++ [0x61]))) ∧
    (List.replicate 32 0 ++ [0x61] : Bytes) ≠ List.replicate 16 0 ++ [0x61] ∧
    (List.replicate 32 0 ++ [0x61] : Bytes).length = 33 ∧
    ([0x61] : Bytes).length + 16 = 17 := by
  refine ⟨by decide, by decide, by decide, by decide⟩

/-- When the primitive reports status 0 and the sealed bytes start with a zero byte, as the
leading zero region of the box format makes every sealed buffer do, the 3-argument `Encrypt`
returns a buffer of `len(m) + 32` bytes while the callback of a 4-argument `Encrypt` receives
an empty buffer. -/
theorem Encrypt_callback_gets_empty (S : Sodium) (inst : KeyRing)
    (publicKey privateKey m pk n cipher : Bytes) (callback : Value)
    (hring : inst.keyPair = some (keyPairOf "curve25519" publicKey privateKey))
    (hsk : ∀ c ∈ privateKey, c < 256) (hpk : pk.length = 32) (hn : n.length = 24)
    (hseal : S.crypto_box (List.replicate 32 0 ++ m) n pk privateKey = (0, 0 :: cipher)) :
    (Encrypt S inst [Value.buffer m, Value.buffer pk, Value.buffer n]).2 =
      .returned (.buffer (storeInto (freshBuffer (m.length + 32)) (0 :: cipher))) ∧
    (storeInto (freshBuffer (m.length + 32)) (0 :: cipher)).length = m.length + 32 ∧
    (Encrypt S inst [Value.buffer m, Value.buffer pk, Value.buffer n, callback]).2 =
      .calledBack [.buffer []] := by
  refine ⟨?_, by rw [storeInto_length, freshBuffer_length], ?_⟩
  · rw [Encrypt_of_key S inst publicKey privateKey m pk n [] hring hsk hpk hn, hseal]
    simp
  · rw [Encrypt_of_key S inst publicKey privateKey m pk n [callback] hring hsk hpk hn, hseal]
    have h0 : storeInto (freshBuffer (m.length + 32)) (0 :: cipher) =
        0 :: (List.take (m.length + 31) cipher ++
          List.drop (cipher.length + 1) (freshBuffer (m.length + 32))) := by
      simp only [storeInto, freshBuffer_length, List.length_cons]
      rw [show m.length + 32 = (m.length + 31) + 1 by omega, List.take_succ_cons]
      rfl
    simp [h0, cString]

/-- C13 fails on the code. For the message `61 62`, with the sealing stand-in reporting status
0, the 3-argument `Encrypt` returns the 34 bytes of the sealed buffer and the 4-argument
`Encrypt` hands its callback an empty buffer: the callback path builds its buffer with
`BUILD_BUFFER`, whose length is `strlen` of the sealed bytes, and these start with zeros. -/
theorem Encrypt_callback_differs_from_return :
    ((exampleSodium [] []).crypto_box (List.replicate 32 0 ++ [0x61, 0x62])
      (List.replicate 24 0x05) (List.replicate 32 0x03) (List.replicate 32 0x02)).1 = 0 ∧
    (Encrypt (exampleSodium [] [])
        (ringOf "curve25519" (List.replicate 32 0x01) (List.replicate 32 0x02))
        [Value.buffer [0x61, 0x62], Value.buffer (List.replicate 32 0x03),
          Value.buffer (List.replicate 24 0x05)]).2 =
      .returned (.buffer (List.replicate 32 0 ++ [0x61, 0x62])) ∧
    (Encrypt (exampleSodium [] [])
        (ringOf "curve25519" (List.replicate 32 0x01) (List.replicate 32 0x02))
        [Value.buffer [0x61, 0x62], Value.buffer (List.replicate 32 0x03),
          Value.buffer (List.replicate 24 0x05), Value.callback]).2 =
      .calledBack [.buffer []] ∧
    List.replicate 32 0 ++ [0x61, 0x62] ≠ ([] : Bytes) := by
  refine ⟨by decide, by decide, by decide, by decide⟩

end KeyRing

end NodeSodium
